import Mathlib

/-!
Shallow embedding of the email-agent classification pipeline
(src/rules.py, src/ml_spam_classifier.py, src/utils.py, src/pipeline.py)
together with proofs of the spec claims about it.

Modelling conventions:
- Python floats are modelled as rationals (the score arithmetic only uses
  decimal literals, addition, multiplication, min/max and comparisons).
- Python dicts holding JSON payloads are modelled as records whose fields
  are wrapped in Option, so that key presence and dict.get defaults are
  representable; dict truthiness is the disjunction of key presence.
- The SQLAlchemy session is modelled as a pair of stores
  (committed, current): add appends a row to current, commit copies
  current into committed, rollback restores current from committed.
  Queries read the session (current) state; .first() is first in
  insertion (rowid) order.
- The remote LLM (classify_email / summarize_email in llm.py) is an
  external oracle; its calls are fallible (Except) and are counted in a
  Trace so that "the oracle is never invoked" is observable.
-/

/-! ### String helpers (Python substring / strip / lower semantics) -/

/-- Boolean list-prefix test. -/

def prefB : List Char → List Char → Bool
  | [], _ => true
  | _ :: _, [] => false
  | a :: as, b :: bs => a == b && prefB as bs

/-- Boolean list-infix test (Python `needle in hay`). -/
def infB (n : List Char) : List Char → Bool
  | [] => n.isEmpty
  | c :: rest => prefB n (c :: rest) || infB n rest

/-- Python `needle in hay` on strings. -/
def containsStr (hay needle : String) : Bool :=
  infB needle.data hay.data

/-- Lowercase every character (Python str.lower on ASCII input). -/
def lowerStr (s : String) : String :=
  String.mk (s.data.map Char.toLower)

/-- Strip characters satisfying p from both ends of a char list. -/
def stripP (p : Char → Bool) (l : List Char) : List Char :=
  ((l.dropWhile p).reverse.dropWhile p).reverse

/-- Python str.strip() (whitespace both ends). -/
def stripWs (s : String) : String :=
  String.mk (stripP Char.isWhitespace s.data)

/-- Python s.strip(">"). -/
def stripGt (s : String) : String :=
  String.mk (stripP (fun c => c == '>') s.data)

/-- Characters after the first occurrence of c (Python s.split(c)[1] up to the next split point is applied afterwards). -/
def afterFirstChar (c : Char) (l : List Char) : List Char :=
  (l.dropWhile (fun x => x ≠ c)).drop 1

/-- Characters after the last occurrence of c (Python s.split(c)[-1]). -/
def afterLastChar (c : Char) (l : List Char) : List Char :=
  ((l.reverse.takeWhile (fun x => x ≠ c))).reverse

/-- Count of uppercase characters (Python sum(1 for c in s if c.isupper())). -/
def countUpper (s : String) : Nat :=
  s.data.countP (fun c => c.isUpper)

/-! ### Tiny regular-expression search combinators.

The source uses a handful of concrete re patterns.  A match position is a
pair (previous character, remaining input); a matcher returns the list of
positions reachable after consuming a prefix of the remaining input.
re.search succeeds iff some start position admits a nonempty match set. -/

/-- A matching position: the character just before the cursor (none at the
start of the text) and the text remaining after the cursor. -/
structure RePos where
  prev : Option Char
  rest : List Char

/-- A matcher: all positions reachable by consuming a prefix of rest. -/
def ReM := RePos → List RePos

/-- Match a literal string. -/
def reLit (s : String) : ReM :=
  fun p =>
    if prefB s.data p.rest then
      [⟨(s.data.getLast?).orElse (fun _ => p.prev), p.rest.drop s.data.length⟩]
    else []

/-- Match a single character satisfying a predicate. -/
def reCls (q : Char → Bool) : ReM :=
  fun p =>
    match p.rest with
    | [] => []
    | c :: rest => if q c then [⟨some c, rest⟩] else []

/-- Sequencing of matchers. -/
def reSeq (a b : ReM) : ReM :=
  fun p => (a p).flatMap b

/-- Alternation of matchers. -/
def reAlt (a b : ReM) : ReM :=
  fun p => a p ++ b p

/-- One or more repetitions of a single-character class (greedy set of
possibilities, i.e. all split points). -/
def reClsPlusAux (q : Char → Bool) : Option Char → List Char → List RePos
  | _, [] => []
  | _, c :: rest =>
    if q c then ⟨some c, rest⟩ :: reClsPlusAux q (some c) rest else []

/-- q+ : one or more characters of the class. -/
def reClsPlus (q : Char → Bool) : ReM :=
  fun p => reClsPlusAux q p.prev p.rest

/-- q* : zero or more characters of the class. -/
def reClsStar (q : Char → Bool) : ReM :=
  fun p => p :: reClsPlusAux q p.prev p.rest

/-- Is this a regex word character ([A-Za-z0-9_])? -/
def isWordChar (c : Char) : Bool :=
  c.isAlphanum || c == '_'

/-- Word boundary: exactly one side of the cursor is a word character. -/
def reWb : ReM :=
  fun p =>
    let lw := match p.prev with | some c => isWordChar c | none => false
    let rw := match p.rest with | c :: _ => isWordChar c | [] => false
    if lw != rw then [p] else []

/-- Does the matcher accept starting exactly at position p? -/
def reAccepts (m : ReM) (p : RePos) : Bool :=
  !(m p).isEmpty

/-- All start positions of the text, left to right. -/
def rePositions : Option Char → List Char → List RePos
  | pc, [] => [⟨pc, []⟩]
  | pc, c :: rest => ⟨pc, c :: rest⟩ :: rePositions (some c) rest

/-- re.search: does the pattern match somewhere in the text? -/
def reSearch (m : ReM) (text : List Char) : Bool :=
  (rePositions none text).any (fun p => reAccepts m p)

/-- Python whitespace class for the re module. -/
def isReSpace (c : Char) : Bool :=
  c == ' ' || c == '\t' || c == '\n' || c == '\x0d' || c == '\x0c' || c == '\x0b'

/-! ### Data model (src/models.py, restricted to the columns the pipeline reads) -/

/-- A row of the emails table (models.Email).  labels is the label list held
in labels_json (is_sent_by_user reads labels_json as {"labels": [...]} or a
plain list; we model the resulting label list). -/
structure EmailRec where
  id : Nat
  userId : Option Nat
  msgId : String
  threadId : String
  fromAddr : String
  toAddr : String
  subject : String
  snippet : String
  receivedAt : Nat
  repliedAt : Option Nat
  labels : List String
  isRead : Bool
deriving Repr, DecidableEq

/-- A row of the users table (models.User, columns the pipeline reads). -/
structure UserRec where
  id : Nat
  email : String
deriving Repr, DecidableEq

/-- A row of the spam_feedback table (models.SpamFeedback, columns read by
calculate_spam_score). -/
structure FeedbackRec where
  userId : Option Nat
  fromDomain : String
  is_spam : Bool
deriving Repr, DecidableEq

/-- A classification payload dict.  Each Python dict key becomes an Option
field; none models key absence, so that .get defaults are expressible. -/
structure Cls where
  priority : Option String := none
  action : Option String := none
  is_spam : Option Bool := none
  is_sent : Option Bool := none
  spam_type : Option String := none
  spam_confidence : Option ℚ := none
  ml_spam_score : Option ℚ := none
  ml_confidence : Option String := none
  reasons : Option (List String) := none
  reasoning : Option String := none
deriving Repr, DecidableEq

/-- Python truthiness of the classification dict (empty dict is falsy). -/
def Cls.isTruthyDict (c : Cls) : Bool :=
  c.priority.isSome || c.action.isSome || c.is_spam.isSome || c.is_sent.isSome ||
  c.spam_type.isSome || c.spam_confidence.isSome || c.ml_spam_score.isSome ||
  c.ml_confidence.isSome || c.reasons.isSome || c.reasoning.isSome

/-- The feature dict returned by MLSpamClassifier.extract_features. -/
structure Features where
  from_domain : String
  subject_length : Nat
  body_length : Nat
  has_links : Bool
  spam_keyword_count : Nat
  money_request_count : Nat
  suspicious_pattern_count : Nat
  caps_ratio : ℚ
  is_marketing_domain : Bool
deriving Repr, DecidableEq

/-- The result dict returned by MLSpamClassifier.classify. -/
structure MLResult where
  classification : String
  ml_score : ℚ
  confidence : String
  features : Features
  llm_is_spam : Bool
deriving Repr, DecidableEq

/-- An inference payload (the JSON column of an Inference row). -/
inductive InfPayload where
  | cls (c : Cls)
  | ml (m : MLResult)
  | summ (s : String)
deriving Repr, DecidableEq

/-- Reading an inference payload as a classification dict (a non-dict or
foreign payload reads as the empty dict: every .get yields its default). -/
def InfPayload.asCls : InfPayload → Cls
  | .cls c => c
  | _ => {}

def defaultFeatures : Features :=
  { from_domain := "", subject_length := 0, body_length := 0, has_links := false,
    spam_keyword_count := 0, money_request_count := 0, suspicious_pattern_count := 0,
    caps_ratio := 0, is_marketing_domain := false }

/-- Reading an inference payload as an ML result dict; missing keys take the
defensive defaults the source uses (.get('classification', 'not_spam')). -/
def InfPayload.asMl : InfPayload → MLResult
  | .ml m => m
  | _ => { classification := "not_spam", ml_score := 0, confidence := "",
           features := defaultFeatures, llm_is_spam := false }

/-- A row of the inferences table (models.Inference). -/
structure InferenceRec where
  emailId : Nat
  kind : String
  json : InfPayload
  model : String
deriving Repr, DecidableEq

/-- Database contents (rows of the tables the pipeline touches).  Inference
rows are kept in insertion (rowid) order; .first() is the first match. -/
structure Store where
  emails : List EmailRec
  users : List UserRec
  feedback : List FeedbackRec
  inferences : List InferenceRec
deriving Repr, DecidableEq

/-- A SQLAlchemy session over a store: committed is the durable state,
current is what session queries see (committed plus uncommitted writes). -/
structure DB where
  committed : Store
  current : Store
deriving Repr, DecidableEq

/-- session.add of an inference row. -/
def DB.addInf (db : DB) (r : InferenceRec) : DB :=
  { db with current := { db.current with inferences := db.current.inferences ++ [r] } }

/-- session.commit. -/
def DB.commit (db : DB) : DB :=
  { db with committed := db.current }

/-- session.rollback. -/
def DB.rollback (db : DB) : DB :=
  { db with current := db.committed }

/-- db.query(Inference).filter(email_id == eid, kind == k).first(). -/
def findInf : List InferenceRec → Nat → String → Option InferenceRec
  | [], _, _ => none
  | r :: rest, eid, k =>
    if r.emailId == eid && r.kind == k then some r else findInf rest eid k

def firstInference (st : Store) (eid : Nat) (k : String) : Option InferenceRec :=
  findInf st.inferences eid k

/-- In-place payload update of the first classification row of an email
(the "merge ML result into classification payload" step). -/
def updateFirstCls : List InferenceRec → Nat → Cls → List InferenceRec
  | [], _, _ => []
  | r :: rest, eid, c =>
    if r.emailId == eid && r.kind == "classification" then
      { r with json := InfPayload.cls c } :: rest
    else
      r :: updateFirstCls rest eid c

def DB.updateCls (db : DB) (eid : Nat) (c : Cls) : DB :=
  { db with current := { db.current with inferences := updateFirstCls db.current.inferences eid c } }

/-- The remote LLM transport (llm.classify_email / llm.summarize_email):
synchronous, fallible, external. -/
structure Oracle where
  classifyEmail : String → String → Except String Cls
  summarizeEmail : String → String → String → Except String String

/-- Invocation counters for the engines, to state "X is never invoked". -/
structure Trace where
  ruleCalls : Nat := 0
  oracleClassifyCalls : Nat := 0
  oracleSummarizeCalls : Nat := 0
  mlCalls : Nat := 0
deriving Repr, DecidableEq

/-- settings.MODEL_NAME default (config.py). -/
def MODEL_NAME : String := "gpt-5"

/-! ### Rule engine (src/rules.py) -/

/-- HIGH_PRIORITY_DOMAINS (a Python set; listed in source order). -/
def HIGH_PRIORITY_DOMAINS : List String :=
  ["@stanford.edu", "@judgmentlabs.ai"]

/-- HIGH_PRIORITY_KEYWORDS (a Python set; "deadline" appears twice in the
source literal but a set keeps one copy). -/
def HIGH_PRIORITY_KEYWORDS : List String :=
  ["interview", "offer", "invoice", "overdue", "refund",
   "escalation", "legal", "deadline", "urgent", "asap",
   "due date", "contract", "agreement"]

/-- SCHEDULING_KEYWORDS. -/
def SCHEDULING_KEYWORDS : List String :=
  ["meeting", "meet", "calendar", "invite", "invitation", "rsvp",
   "appointment", "schedule", "scheduled", "reschedule", "availability",
   "zoom", "google meet", "meet.google.com", "calendar event", "ics",
   "begin:vcalendar", "outlook", "teams meeting"]

/-- Regex digit class. -/
def isReDigit (c : Char) : Bool := c.isDigit

/-- A whole word: word boundary, literal, word boundary. -/
def reWord (s : String) : ReM :=
  reSeq reWb (reSeq (reLit s) reWb)

/-- hours|hrs|days alternative of the time-sensitive patterns. -/
def reHoursAlt : ReM :=
  reAlt (reLit "hours") (reAlt (reLit "hrs") (reLit "days"))

/-- TIME_SENSITIVE_PATTERNS, one matcher per source regex, in order. -/
def TIME_SENSITIVE_PATTERNS : List ReM :=
  [ reSeq reWb (reSeq (reLit "by") (reSeq (reClsPlus isReSpace) (reSeq (reLit "eod") reWb))),
    reWord "today",
    reWord "tomorrow",
    reSeq reWb (reSeq (reLit "within") (reSeq (reClsPlus isReSpace)
      (reSeq (reClsPlus isReDigit) (reSeq (reClsStar isReSpace) (reSeq reHoursAlt reWb))))),
    reSeq reWb (reSeq (reLit "in") (reSeq (reClsPlus isReSpace)
      (reSeq (reClsPlus isReDigit) (reSeq (reClsStar isReSpace) (reSeq reHoursAlt reWb))))),
    reWord "deadline",
    reWord "due",
    reWord "urgent",
    reWord "asap",
    reSeq reWb (reSeq (reLit "time") (reSeq (reCls (fun c => c == '-' || c == ' ')) (reSeq (reLit "sensitive") reWb))) ]

/-- SPAM_KEYWORDS (a Python set; listed in source order). -/
def SPAM_KEYWORDS : List String :=
  ["unsubscribe", "click here", "limited time", "act now",
   "congratulations", "you've won", "free money", "viagra",
   "casino", "lottery", "inheritance", "shop now", "buy now",
   "special offer", "exclusive deal", "save now", "don't miss",
   "flash sale", "clearance", "today only", "hurry", "expires soon",
   "% off", "percent off", "discount", "promo code", "coupon",
   "black friday", "cyber monday", "holiday sale", "free shipping",
   "browse collection", "new arrivals", "just launched", "now available",
   "see what's new", "shop the", "explore our", "check out our",
   "limited stock", "while supplies last", "ending soon", "last chance"]

/-- PROMO_SENDER_PATTERNS. -/
def PROMO_SENDER_PATTERNS : List String :=
  ["no-reply@", "noreply@", "donotreply@", "do-not-reply@",
   "marketing@", "promo@", "promotions@", "deals@", "offers@",
   "newsletter@", "news@", "updates@", "notifications@",
   "automated@", "auto@", "bounce@", "mailer@"]

/-- RETAIL_MARKETING_DOMAINS (a Python set; listed in source order). -/
def RETAIL_MARKETING_DOMAINS : List String :=
  ["amazon.com", "amazonselling", "amazonbusiness", "primevideo",
   "walmart.com", "target.com", "ebay.com", "etsy.com",
   "bestbuy.com", "homedepot.com", "lowes.com", "costco.com",
   "wayfair.com", "overstock.com", "zappos.com", "chewy.com",
   "gap.com", "oldnavy.com", "bananarepublic.com", "jcrew.com",
   "nordstrom.com", "macys.com", "kohls.com", "tjmaxx.com",
   "zara.com", "hm.com", "uniqlo.com", "nike.com", "adidas.com",
   "groupon.com", "livingsocial.com", "retailmenot.com",
   "slickdeals.net", "dealnews.com", "woot.com",
   "mailchimp.com", "sendgrid.net", "constantcontact.com",
   "customeriomail.com", "sendpulse.com", "hubspot.com",
   "salesforce.com", "marketo.com", "eloqua.com", "exacttarget.com",
   "em.com", "eml.cc", ".marketing", ".promo", ".deals"]

/-- SPAM_DOMAINS (empty in the source). -/
def SPAM_DOMAINS : List String := []

/-- transactional_keywords of the retail/marketing rule. -/
def transactionalKeywords : List String :=
  ["order confirmation", "your order", "order #", "order number",
   "shipped", "tracking", "delivery", "has been delivered",
   "return", "refund", "receipt", "invoice", "payment",
   "account created", "password reset", "verify your"]

/-- Character classes of the e-mail address regex of rule 9. -/
def isLocalChar (c : Char) : Bool :=
  c.isAlphanum || c == '.' || c == '_' || c == '%' || c == '+' || c == '-'

def isDomainChar (c : Char) : Bool :=
  c.isAlphanum || c == '.' || c == '-'

def isTldChar (c : Char) : Bool :=
  c.isAlpha || c == '|'

/-- Word-boundary test between an optional previous char and an optional
next char. -/
def boundaryAt (pc : Option Char) (nc : Option Char) : Bool :=
  (match pc with | some c => isWordChar c | none => false) !=
  (match nc with | some c => isWordChar c | none => false)

/-- Greedy match of the tail \.[A-Z|a-z]{2,}\b of the e-mail regex inside
the maximal domain-character run dom (followed by rem): picks the rightmost
feasible dot, as the backtracking on the greedy [A-Za-z0-9.-]+ does.
Returns the number of domain characters consumed. -/
def emailDomTail (dom rem : List Char) : Option Nat :=
  (List.range dom.length).reverse.findSome? (fun i =>
    if dom.get? i == some '.' && i > 0 then
      let t := (dom.drop (i+1)).takeWhile isTldChar
      let afterT := (dom.drop (i+1+t.length)) ++ rem
      if t.length ≥ 2 && !(match afterT.head? with | some c => isWordChar c | none => false) then
        some (i+1+t.length)
      else none
    else none)

/-- Try to match the rule-9 e-mail regex at this exact position; returns the
position after the match. -/
def matchEmailAt (pc : Option Char) (l : List Char) : Option (Option Char × List Char) :=
  if boundaryAt pc l.head? then
    let loc := l.takeWhile isLocalChar
    let rest1 := l.drop loc.length
    if loc ≠ [] then
      match rest1 with
      | '@' :: rest2 =>
        let dom := rest2.takeWhile isDomainChar
        let rem := rest2.drop dom.length
        match emailDomTail dom rem with
        | some used =>
          let consumed := dom.take used
          some (consumed.getLast?, dom.drop used ++ rem)
        | none => none
      | _ => none
    else none
  else none

/-- re.findall count for the rule-9 e-mail regex: scan left to right,
counting non-overlapping matches (fuel bounds the scan; it is initialised
to the text length, which suffices since every step consumes a char). -/
def countEmailsAux : Nat → Option Char → List Char → Nat
  | 0, _, _ => 0
  | _ + 1, _, [] => 0
  | fuel + 1, pc, c :: rest =>
    match matchEmailAt pc (c :: rest) with
    | some (pc2, rest2) => 1 + countEmailsAux fuel pc2 rest2
    | none => countEmailsAux fuel (some c) rest

def countEmailMatches (body : String) : Nat :=
  countEmailsAux (body.data.length + 1) none body.data

/-- apply_heuristic_rules(subject, body, from_addr) -> dict | None
(src/rules.py lines 96-222).  Ordered first-match-wins checks. -/
def apply_heuristic_rules (subject body from_addr : String) : Option Cls :=
  let subject_lower := lowerStr subject
  let body_lower := lowerStr body
  let from_addr_lower := lowerStr from_addr
  match PROMO_SENDER_PATTERNS.find? (fun pat => containsStr from_addr_lower pat) with
  | some pat =>
    some { priority := some "low", is_spam := some true, spam_type := some "promotional",
           action := some "archive", reasons := some [s!"Promotional sender pattern: {pat}"] }
  | none =>
  match RETAIL_MARKETING_DOMAINS.find? (fun d => containsStr from_addr_lower d) with
  | some d =>
    let is_transactional := transactionalKeywords.any
      (fun kw => containsStr subject_lower kw || containsStr body_lower kw)
    if is_transactional then
      some { priority := some "low", is_spam := some false, spam_type := some "not_spam",
             action := some "read_only", reasons := some ["Transactional email from retailer"] }
    else
      some { priority := some "low", is_spam := some true, spam_type := some "promotional",
             action := some "archive", reasons := some [s!"Marketing email from retail domain: {d}"] }
  | none =>
  match HIGH_PRIORITY_DOMAINS.find? (fun d => containsStr from_addr_lower d) with
  | some d =>
    some { priority := some "high", is_spam := some false, action := some "needs_reply",
           reasons := some [s!"High priority domain: {d}"] }
  | none =>
  match HIGH_PRIORITY_KEYWORDS.find?
      (fun kw => containsStr subject_lower kw || containsStr body_lower kw) with
  | some kw =>
    some { priority := some "high", is_spam := some false, action := some "needs_reply",
           reasons := some [s!"High priority keyword: {kw}"] }
  | none =>
  match SCHEDULING_KEYWORDS.find?
      (fun kw => containsStr subject_lower kw || containsStr body_lower kw) with
  | some kw =>
    some { priority := some "high", is_spam := some false, action := some "needs_reply",
           reasons := some [s!"Scheduling/appointment keyword: {kw}"] }
  | none =>
  if TIME_SENSITIVE_PATTERNS.any
      (fun m => reSearch m subject_lower.data || reSearch m body_lower.data) then
    some { priority := some "high", is_spam := some false, action := some "needs_reply",
           reasons := some ["Time-sensitive request detected"] }
  else
  match SPAM_KEYWORDS.find?
      (fun kw => containsStr subject_lower kw || containsStr body_lower kw) with
  | some kw =>
    some { priority := some "low", is_spam := some true, action := some "archive",
           reasons := some [s!"Spam keyword: {kw}"] }
  | none =>
  match SPAM_DOMAINS.find? (fun d => containsStr from_addr_lower d) with
  | some d =>
    some { priority := some "low", is_spam := some true, action := some "archive",
           reasons := some [s!"Spam domain: {d}"] }
  | none =>
  if containsStr subject "?" || containsStr body "?" then
    if countEmailMatches body > 4 then
      some { priority := some "normal", is_spam := some false, action := some "needs_reply",
             reasons := some ["Long thread with question"] }
    else none
  else none

/-! ### ML spam classifier (src/ml_spam_classifier.py) -/

/-- Python max on two rationals (kernel-reducible rendering of max). -/
def qmax (a b : ℚ) : ℚ := if a ≤ b then b else a

/-- Python min on two rationals (kernel-reducible rendering of min). -/
def qmin (a b : ℚ) : ℚ := if a ≤ b then a else b

/-- self.money_request_keywords. -/
def moneyRequestKeywords : List String :=
  ["donate", "donation", "contribute", "contribution", "fundraising",
   "support our mission", "make a gift", "give today", "help us",
   "support us", "join us", "become a member", "membership", "renew",
   "your support matters", "make a difference", "support our cause",
   "sponsor", "sponsorship", "pledge", "crowdfunding", "gofundme",
   "patreon", "kickstarter", "campaign", "goal", "matching gift"]

/-- self.spam_keywords. -/
def mlSpamKeywords : List String :=
  ["viagra", "cialis", "casino", "lottery", "winner", "prize", "congratulations",
   "click here", "act now", "limited time", "free money", "earn money fast",
   "work from home", "lose weight", "miracle", "guarantee", "no obligation",
   "risk free", "call now", "subscribe", "unsubscribe", "opt out",
   "100% free", "double your", "extra income", "financial freedom",
   "get paid", "increase sales", "save big", "special promotion",
   "deal", "offer", "discount", "coupon", "sale", "clearance",
   "webinar", "register now", "sign up", "join now", "learn more"]

/-- re.search(r"\$\d+[,\d]*", text): a dollar sign directly followed by a
digit (the trailing [,\d]* may be empty). -/
def dollarAmountB : List Char → Bool
  | [] => false
  | '$' :: rest =>
    (match rest with | c :: _ => c.isDigit | [] => false) || dollarAmountB rest
  | _ :: rest => dollarAmountB rest

/-- self.suspicious_patterns, each as a Boolean test over the lowercased
text (all searches carry re.IGNORECASE, so searching the lowercased text
for the lowercased literal is equivalent). -/
def suspiciousPatternTests (textLower : String) : List Bool :=
  [ dollarAmountB textLower.data,
    containsStr textLower "!!!",
    containsStr textLower "click here",
    containsStr textLower "buy now",
    containsStr textLower "free!!!",
    containsStr textLower "http://bit.ly" || containsStr textLower "https://bit.ly",
    containsStr textLower "http://tinyurl" || containsStr textLower "https://tinyurl" ]

/-- self.marketing_domains of extract_features. -/
def marketingDomainTerms : List String :=
  ["marketing", "promo", "deals", "offers", "newsletter", "noreply"]

/-- MLSpamClassifier.extract_features (lines 50-97). -/
def extract_features (email : EmailRec) (snippet : String) : Features :=
  let from_addr := email.fromAddr
  let subject := email.subject
  let body := if snippet != "" then snippet else email.snippet
  let domain :=
    if containsStr from_addr "@" then
      stripWs (stripGt (lowerStr (String.mk (afterLastChar '@' from_addr.data))))
    else ""
  let text_lower := lowerStr (subject ++ " " ++ body)
  let spam_keyword_count := mlSpamKeywords.countP (fun kw => containsStr text_lower kw)
  let money_request_count := moneyRequestKeywords.countP (fun kw => containsStr text_lower kw)
  let suspicious_pattern_count :=
    (suspiciousPatternTests (lowerStr (subject ++ " " ++ body))).countP (fun b => b)
  let caps_ratio : ℚ :=
    if subject.length > 0 then (countUpper subject : ℚ) / (subject.length : ℚ) else 0
  let has_links :=
    containsStr body "http://" || containsStr body "https://" || containsStr body "www."
  let subject_length := subject.length
  let is_marketing_domain := marketingDomainTerms.any (fun t => containsStr domain t)
  { from_domain := domain, subject_length := subject_length, body_length := body.length,
    has_links := has_links, spam_keyword_count := spam_keyword_count,
    money_request_count := money_request_count,
    suspicious_pattern_count := suspicious_pattern_count,
    caps_ratio := caps_ratio, is_marketing_domain := is_marketing_domain }

/-- The per-user per-domain feedback adjustment of calculate_spam_score
(lines 128-146): +0.3 on a strict spam majority for the sender domain,
-0.3 on a strict not-spam majority, else no adjustment (and none when the
domain is empty or has no feedback). -/
def feedbackAdjust (domain : String) (fb : List FeedbackRec) (userId : Option Nat) : ℚ :=
  if domain != "" then
    let feedback := fb.filter (fun f => f.userId == userId && f.fromDomain == domain)
    if !feedback.isEmpty then
      let spam_count := feedback.countP (fun f => f.is_spam)
      let not_spam_count := feedback.countP (fun f => !f.is_spam)
      if spam_count > not_spam_count then 0.3
      else if not_spam_count > spam_count then -0.3
      else 0
    else 0
  else 0

/-- The additive sum built by MLSpamClassifier.calculate_spam_score
(lines 99-147) before the final clamp to [0, 1].  Each guarded
score += delta statement of the source is rendered as adding
(if guard then delta else 0). -/
def spamScoreRaw (features : Features) (fb : List FeedbackRec) (userId : Option Nat) : ℚ :=
  let money_request_count := features.money_request_count
  let moneyTerm : ℚ :=
    if money_request_count > 0 then (money_request_count : ℚ) * 0.35 else 0
  let marketingTerm : ℚ := if features.is_marketing_domain then 0.2 else 0
  let linksTerm : ℚ :=
    if features.has_links && features.spam_keyword_count > 0 then 0.15 else 0
  let shortSubjectTerm : ℚ :=
    if features.subject_length < 20 && features.spam_keyword_count > 0 then 0.12 else 0
  0 + moneyTerm + (features.spam_keyword_count : ℚ) * 0.15 +
    (features.suspicious_pattern_count : ℚ) * 0.12 + features.caps_ratio * 0.2 +
    marketingTerm + linksTerm + shortSubjectTerm +
    feedbackAdjust features.from_domain fb userId

/-- MLSpamClassifier.calculate_spam_score: the additive sum, capped between
0 and 1 (line 149: max(0.0, min(1.0, score))). -/
def calculate_spam_score (features : Features) (fb : List FeedbackRec)
    (userId : Option Nat) : ℚ :=
  qmax 0 (qmin 1 (spamScoreRaw features fb userId))

/-- The bucketing if-chain of MLSpamClassifier.classify (lines 169-178). -/
def spamBucket (ml_score : ℚ) : String × String :=
  if ml_score ≥ 0.7 then ("spam", "high")
  else if ml_score ≥ 0.35 then ("potential_spam", "medium")
  else ("not_spam", if ml_score < 0.15 then "high" else "low")

/-- llm_is_spam of MLSpamClassifier.classify (lines 160-162):
if llm_classification and 'is_spam' in llm_classification. -/
def llmIsSpamOf (llm_classification : Option Cls) : Bool :=
  match llm_classification with
  | some c => if c.isTruthyDict && c.is_spam.isSome then c.is_spam.getD false else false
  | none => false

/-- MLSpamClassifier.classify (lines 151-186). -/
def MLSpamClassifier.classify (email : EmailRec) (st : Store) (userId : Option Nat)
    (snippet : String) (llm_classification : Option Cls) : MLResult :=
  let features := extract_features email snippet
  let ml_score := calculate_spam_score features st.feedback userId
  let llm_is_spam := llmIsSpamOf llm_classification
  let ml_score := if llm_is_spam then qmin 1 (ml_score + 0.3) else ml_score
  let bucket := spamBucket ml_score
  { classification := bucket.1, ml_score := ml_score, confidence := bucket.2,
    features := features, llm_is_spam := llm_is_spam }

/-! ### Utilities (src/utils.py) -/

/-- is_sent_by_user (utils.py lines 13-37). -/
def is_sent_by_user (email : EmailRec) (user : UserRec) : Bool :=
  if email.labels.contains "SENT" then true
  else if email.fromAddr != "" && user.email != "" then
    let user_email_normalized := stripWs (lowerStr user.email)
    let from_email := stripWs (lowerStr email.fromAddr)
    let from_email :=
      if containsStr from_email "<" then
        stripWs (String.mk
          (((afterFirstChar '<' from_email.data).takeWhile (fun c => c ≠ '<')).takeWhile
            (fun c => c ≠ '>')))
      else from_email
    from_email == user_email_normalized
  else false

/-- The fixed sent-by-user classification dict (utils.py lines 99-106). -/
def sentClassification : Cls :=
  { priority := some "low", action := some "archive", is_spam := some false,
    is_sent := some true, spam_type := some "not_spam",
    reasoning := some "Email sent by user" }

/-- The rules-then-LLM tail of classify_with_rules_and_llm
(utils.py lines 108-121). -/
def classifyWithRulesRest (oracle : Oracle) (email : EmailRec) :
    Except String Cls × Trace :=
  match apply_heuristic_rules email.subject email.snippet email.fromAddr with
  | some ruleResult => (Except.ok ruleResult, { ruleCalls := 1 })
  | none =>
    (oracle.classifyEmail email.subject email.snippet,
     { ruleCalls := 1, oracleClassifyCalls := 1 })

/-- classify_with_rules_and_llm (utils.py lines 94-121); the Trace counts
which engines were invoked. -/
def classify_with_rules_and_llm (oracle : Oracle) (email : EmailRec)
    (user : Option UserRec) : Except String Cls × Trace :=
  match user with
  | some u =>
    if is_sent_by_user email u then (Except.ok sentClassification, {})
    else classifyWithRulesRest oracle email
  | none => classifyWithRulesRest oracle email

/-- The dict built by format_email_for_display (from/to are Python dict
keys "from"/"to"). -/
structure DisplayPayload where
  id : Nat
  msg_id : String
  thread_id : String
  fromAddr : String
  toAddr : String
  subject : String
  snippet : String
  received_at : Nat
  is_read : Bool
  replied_at : Option Nat
  needs_reply : Bool
  classification : Option Cls
  summary : Option String
deriving Repr, DecidableEq

/-- format_email_for_display (utils.py lines 154-180). -/
def format_email_for_display (email : EmailRec) (classification : Option Cls)
    (summary : Option String) : DisplayPayload :=
  let needs_reply :=
    match classification with
    | some c =>
      if c.isTruthyDict && c.action == some "needs_reply" then
        email.repliedAt.isNone
      else false
    | none => false
  let payload : DisplayPayload :=
    { id := email.id, msg_id := email.msgId, thread_id := email.threadId,
      fromAddr := email.fromAddr, toAddr := email.toAddr, subject := email.subject,
      snippet := if email.snippet.length > 200 then
          String.mk (email.snippet.data.take 200) ++ "..." else email.snippet,
      received_at := email.receivedAt, is_read := email.isRead,
      replied_at := email.repliedAt, needs_reply := needs_reply,
      classification := classification, summary := summary }
  if payload.needs_reply && email.repliedAt.isSome then
    { payload with needs_reply := false }
  else payload

/-! ### Pipeline (src/pipeline.py) -/

/-- The ML-merge of process_email (pipeline.py lines 94-105): override the
LLM spam decision from the ML bucket, then attach ml score/confidence. -/
def mlMergeInto (classification : Cls) (ml_result : MLResult) : Cls :=
  let classification :=
    if ml_result.classification == "spam" then
      { classification with is_spam := some true, spam_type := some "spam" }
    else if ml_result.classification == "potential_spam" then
      { classification with is_spam := some false, spam_type := some "potential_spam" }
    else
      { classification with spam_type := some "not_spam" }
  { classification with
    ml_spam_score := some ml_result.ml_score
    ml_confidence := some ml_result.confidence }

/-- user = db.query(User).filter(User.id == email.user_id).first()
if email.user_id else None (pipeline.py line 59). -/
def lookupUser (st : Store) (email : EmailRec) : Option UserRec :=
  match email.userId with
  | some uid => if uid != 0 then st.users.find? (fun u => u.id == uid) else none
  | none => none

/-- Steps 2 and 3 of process_email (pipeline.py lines 82-192): ML spam
classification with merge into the stored classification row, the spam
gate, and gated summarization. -/
def processStep2 (db : DB) (email : EmailRec) (classifyOnly : Bool) (oracle : Oracle)
    (classification : Cls) (existingSum existingMl : Option InferenceRec)
    (tr : Trace) : DB × Bool × Trace :=
  let step2 : DB × Cls × Trace :=
    match existingMl with
    | none =>
      let ml_result := MLSpamClassifier.classify email db.current email.userId
        email.snippet (some classification)
      let cls2 := mlMergeInto classification ml_result
      let dbA := db.addInf { emailId := email.id, kind := "ml_spam_classification",
                             json := InfPayload.ml ml_result, model := "ml_heuristic_v1" }
      let dbB := (dbA.updateCls email.id cls2).commit
      (dbB, cls2, { tr with mlCalls := tr.mlCalls + 1 })
    | some row =>
      let ml_result := row.json.asMl
      let cls2 := if classification.spam_type.isNone then
          { classification with spam_type := some ml_result.classification }
        else classification
      (db, cls2, tr)
  let db2 := step2.1
  let cls2 := step2.2.1
  let tr2 := step2.2.2
  if cls2.is_spam.getD false then (db2, true, tr2)
  else
    let should_summarize := !classifyOnly && existingSum.isNone &&
      (cls2.action == some "needs_reply" || cls2.priority == some "high")
    if should_summarize then
      match oracle.summarizeEmail email.subject email.snippet "" with
      | Except.ok summary =>
        ((db2.addInf { emailId := email.id, kind := "summary",
                       json := InfPayload.summ summary, model := MODEL_NAME }).commit, true,
         { tr2 with oracleSummarizeCalls := tr2.oracleSummarizeCalls + 1 })
      | Except.error _ =>
        (db2.rollback, false, { tr2 with oracleSummarizeCalls := tr2.oracleSummarizeCalls + 1 })
    else (db2, true, tr2)

/-- process_email (pipeline.py lines 12-197).  Returns the session, the
Boolean result (False on a caught exception, after rollback), and the
engine-invocation trace. -/
def process_email (db : DB) (email : EmailRec) (classifyOnly : Bool) (oracle : Oracle) :
    DB × Bool × Trace :=
  let existingCls := firstInference db.current email.id "classification"
  let existingSum := firstInference db.current email.id "summary"
  let existingMl := firstInference db.current email.id "ml_spam_classification"
  if existingCls.isSome && existingSum.isSome && existingMl.isSome then
    (db, true, {})
  else
    match existingCls with
    | some row =>
      processStep2 db email classifyOnly oracle row.json.asCls existingSum existingMl {}
    | none =>
      let user := lookupUser db.current email
      match classify_with_rules_and_llm oracle email user with
      | (Except.error _, tr) => (db.rollback, false, tr)
      | (Except.ok classification, tr) =>
        let db1 := (db.addInf { emailId := email.id, kind := "classification",
                                json := InfPayload.cls classification,
                                model := MODEL_NAME }).commit
        processStep2 db1 email classifyOnly oracle classification existingSum existingMl tr

/-- Stable insertion of e before the first element strictly below it. -/
def insertByDescK (kgt : EmailRec → EmailRec → Bool) (e : EmailRec) :
    List EmailRec → List EmailRec
  | [] => [e]
  | x :: xs => if kgt e x then e :: x :: xs else x :: insertByDescK kgt e xs

/-- Stable descending sort by a strict greater-than test. -/
def sortByDescK (kgt : EmailRec → EmailRec → Bool) : List EmailRec → List EmailRec
  | [] => []
  | x :: xs => insertByDescK kgt x (sortByDescK kgt xs)

def hasInfB (st : Store) (eid : Nat) (k : String) : Bool :=
  (firstInference st eid k).isSome

/-- The candidate query of process_new_emails (pipeline.py lines 211-226):
emails missing a classification or missing a summary, newest first. -/
def selectUnprocessed (st : Store) : List EmailRec :=
  sortByDescK (fun a b => decide (b.receivedAt < a.receivedAt))
    (st.emails.filter (fun e =>
      !(hasInfB st e.id "classification") || !(hasInfB st e.id "summary")))

/-- Python integer/None truthiness of an optional count argument. -/
def optTruthy : Option Nat → Bool
  | none => false
  | some n => n != 0

/-- The processing loop of process_new_emails (pipeline.py lines 235-275),
tracking processed_count and non_spam_count. -/
def processLoop (oracle : Oracle) (classifyOnly : Bool)
    (maxEmails targetNonSpam : Option Nat) :
    DB → List EmailRec → Nat → Nat → DB × Nat × Nat
  | db, [], pc, nc => (db, pc, nc)
  | db, e :: rest, pc, nc =>
    if optTruthy maxEmails && pc ≥ maxEmails.getD 0 then (db, pc, nc)
    else if optTruthy targetNonSpam && nc ≥ targetNonSpam.getD 0 then (db, pc, nc)
    else
      let hasC := (firstInference db.current e.id "classification").isSome
      let hasS := (firstInference db.current e.id "summary").isSome
      if hasC && hasS then
        processLoop oracle classifyOnly maxEmails targetNonSpam db rest pc nc
      else
        let res := process_email db e classifyOnly oracle
        if res.2.1 then
          let nc2 :=
            match firstInference res.1.current e.id "classification" with
            | some inf => if !(inf.json.asCls.is_spam.getD false) then nc + 1 else nc
            | none => nc
          processLoop oracle classifyOnly maxEmails targetNonSpam res.1 rest (pc + 1) nc2
        else
          processLoop oracle classifyOnly maxEmails targetNonSpam res.1 rest pc nc

/-- process_new_emails (pipeline.py lines 199-277): returns the session and
processed_count. -/
def process_new_emails (db : DB) (maxEmails targetNonSpam : Option Nat)
    (classifyOnly : Bool) (oracle : Oracle) : DB × Nat :=
  let unprocessed := selectUnprocessed db.current
  let res := processLoop oracle classifyOnly maxEmails targetNonSpam db unprocessed 0 0
  (res.1, res.2.1)

/-- non_spam_email_ids of summarize_pending_emails (pipeline.py line 292). -/
def nonSpamEmailIds (rows : List InferenceRec) : List Nat :=
  (rows.filter (fun c => c.kind == "classification")).filterMap (fun c =>
    if c.json.asCls.isTruthyDict && !(c.json.asCls.is_spam.getD false) then
      some c.emailId
    else none)

/-- priority_map.get(e.id, (None, None)) of summarize_pending_emails
(line 293): a dict comprehension keeps the last truthy-json row per id. -/
def priorityMapGet (rows : List InferenceRec) (eid : Nat) : Option String × Option String :=
  match (rows.filter (fun c => c.kind == "classification" && c.emailId == eid &&
      c.json.asCls.isTruthyDict)).getLast? with
  | some c => (c.json.asCls.action, c.json.asCls.priority)
  | none => (none, none)

/-- sort_key of summarize_pending_emails (lines 302-307). -/
def summSortKey (rows : List InferenceRec) (e : EmailRec) : Nat × Nat × Nat :=
  let ap := priorityMapGet rows e.id
  (if ap.1 == some "needs_reply" then 1 else 0,
   if ap.2 == some "high" then 1 else 0,
   e.receivedAt)

/-- Strict lexicographic greater-than on the sort key triple. -/
def lexGT3 (a b : Nat × Nat × Nat) : Bool :=
  a.1 > b.1 || (a.1 == b.1 && (a.2.1 > b.2.1 || (a.2.1 == b.2.1 && a.2.2 > b.2.2)))

/-- The summarize loop of summarize_pending_emails (lines 312-328): a
failure rolls back and the loop continues. -/
def summarizeLoop (oracle : Oracle) : DB → List EmailRec → Nat → DB × Nat
  | db, [], count => (db, count)
  | db, e :: rest, count =>
    match oracle.summarizeEmail e.subject e.snippet "" with
    | Except.ok summary =>
      summarizeLoop oracle
        ((db.addInf { emailId := e.id, kind := "summary",
                      json := InfPayload.summ summary, model := MODEL_NAME }).commit)
        rest (count + 1)
    | Except.error _ => summarizeLoop oracle db.rollback rest count

/-- summarize_pending_emails (pipeline.py lines 280-330). -/
def summarize_pending_emails (db : DB) (maxEmails : Option Nat) (oracle : Oracle) :
    DB × Nat :=
  let rows := db.current.inferences
  let summaryIds := (rows.filter (fun r => r.kind == "summary")).map (fun r => r.emailId)
  let nonSpamIds := nonSpamEmailIds rows
  let sel := db.current.emails.filter (fun e =>
    nonSpamIds.contains e.id && !(summaryIds.contains e.id))
  let sel := sortByDescK (fun a b => decide (b.receivedAt < a.receivedAt)) sel
  let sel := sortByDescK (fun a b => lexGT3 (summSortKey rows a) (summSortKey rows b)) sel
  let sel :=
    match maxEmails with
    | some m => if m != 0 then sel.take m else sel
    | none => sel
  summarizeLoop oracle db sel 0

/-! ### Store/session lemmas -/

/-- The summary rows of one email (its created summary inferences). -/
def summariesFor (st : Store) (eid : Nat) : List InferenceRec :=
  st.inferences.filter (fun r => r.emailId == eid && r.kind == "summary")

/-- Concrete input for the C4 witness: a replied email whose stored
classification still says needs_reply. -/
def repliedEmail : EmailRec :=
  { id := 7, userId := some 1, msgId := "m7", threadId := "t7",
    fromAddr := "boss@corp.com", toAddr := "me@corp.com", subject := "status?",
    snippet := "can you send the status", receivedAt := 20,
    repliedAt := some 25, labels := [], isRead := true }

def needsReplyCls : Cls :=
  { priority := some "high", action := some "needs_reply", is_spam := some false,
    reasons := some ["question"] }

/-- A feature vector whose additive score is exactly 0.70. -/
def fvScore070 : Features :=
  { from_domain := "", subject_length := 30, body_length := 40, has_links := false,
    spam_keyword_count := 0, money_request_count := 2, suspicious_pattern_count := 0,
    caps_ratio := 0, is_marketing_domain := false }

/-- A feature vector whose additive score is exactly 0.6999. -/
def fvScore06999 : Features :=
  { from_domain := "", subject_length := 100, body_length := 40, has_links := false,
    spam_keyword_count := 1, money_request_count := 0, suspicious_pattern_count := 2,
    caps_ratio := mkRat 1099 2000, is_marketing_domain := true }

/-- A feature vector whose additive score is exactly 0.3499. -/
def fvScore03499 : Features :=
  { from_domain := "", subject_length := 100, body_length := 40, has_links := false,
    spam_keyword_count := 1, money_request_count := 0, suspicious_pattern_count := 1,
    caps_ratio := mkRat 799 2000, is_marketing_domain := false }

/-- Concrete fixture: a message carrying the SENT label whose body is
fundraising text (two money-request keywords score 2 × 0.35 = 0.7). -/
def sentSpamEmail : EmailRec :=
  { id := 2, userId := some 1, msgId := "m2", threadId := "t2",
    fromAddr := "me@corp.com", toAddr := "bob@x.com", subject := "hello",
    snippet := "please donate to our fundraising", receivedAt := 11,
    repliedAt := none, labels := ["SENT"], isRead := false }

def ownerUser : UserRec := { id := 1, email := "me@corp.com" }

def sentSpamStore : Store :=
  { emails := [sentSpamEmail], users := [ownerUser], feedback := [], inferences := [] }

def sentSpamDB : DB := { committed := sentSpamStore, current := sentSpamStore }

/-- An oracle whose every call fails: any run that succeeds under it made
no oracle calls at all. -/
def failingOracle : Oracle :=
  { classifyEmail := fun _ _ => Except.error "transport failure",
    summarizeEmail := fun _ _ _ => Except.error "transport failure" }

/-- An oracle classification dict that marks the message spam. -/
def spamSayingCls : Cls := { is_spam := some true }

/-- Concrete fixture: an unclassified message matching no heuristic rule,
so classification must go to the oracle. -/
def plainEmail : EmailRec :=
  { id := 1, userId := none, msgId := "m1", threadId := "t1",
    fromAddr := "alice@corp.com", toAddr := "me@x.com", subject := "hello",
    snippet := "just checking in about the garden", receivedAt := 10,
    repliedAt := none, labels := [], isRead := false }

def plainStore : Store :=
  { emails := [plainEmail], users := [], feedback := [], inferences := [] }

def plainDB : DB := { committed := plainStore, current := plainStore }

/-- Concrete fixture: a message already classified as spam (with its ML
row), summary still missing. -/
def spamEmail3 : EmailRec :=
  { id := 3, userId := some 1, msgId := "m3", threadId := "t3",
    fromAddr := "promo@deals.example", toAddr := "me@corp.com", subject := "win big",
    snippet := "free money deal", receivedAt := 12,
    repliedAt := none, labels := [], isRead := false }

def spamCls3 : Cls :=
  { priority := some "low", action := some "needs_reply", is_spam := some true,
    spam_type := some "spam", reasons := some ["Spam keyword: free money"] }

def spamMl3 : MLResult :=
  { classification := "spam", ml_score := 1, confidence := "high",
    features := defaultFeatures, llm_is_spam := true }

def spamStore3 : Store :=
  { emails := [spamEmail3], users := [ownerUser], feedback := [],
    inferences :=
      [ { emailId := 3, kind := "classification", json := InfPayload.cls spamCls3, model := MODEL_NAME },
        { emailId := 3, kind := "ml_spam_classification", json := InfPayload.ml spamMl3, model := "ml_heuristic_v1" } ] }

def spamDB3 : DB := { committed := spamStore3, current := spamStore3 }

def okOracle : Oracle :=
  { classifyEmail := fun _ _ => Except.ok { priority := some "low", action := some "archive", is_spam := some false, is_sent := some false, reasoning := some "routine correspondence" },
    summarizeEmail := fun _ _ _ => Except.ok "a short summary" }

theorem qmax_eq_max (a b : ℚ) : qmax a b = max a b := by
  simp [qmax, max_def]

theorem qmin_eq_min (a b : ℚ) : qmin a b = min a b := by
  simp [qmin, min_def]

@[simp] theorem DB.addInf_current (db : DB) (r : InferenceRec) :
    (db.addInf r).current = { db.current with inferences := db.current.inferences ++ [r] } := rfl

@[simp] theorem DB.addInf_committed (db : DB) (r : InferenceRec) :
    (db.addInf r).committed = db.committed := rfl

@[simp] theorem DB.commit_current (db : DB) : db.commit.current = db.current := rfl

@[simp] theorem DB.commit_committed (db : DB) : db.commit.committed = db.current := rfl

@[simp] theorem DB.rollback_current (db : DB) : db.rollback.current = db.committed := rfl

@[simp] theorem DB.rollback_committed (db : DB) : db.rollback.committed = db.committed := rfl

@[simp] theorem DB.updateCls_current (db : DB) (eid : Nat) (c : Cls) :
    (db.updateCls eid c).current =
      { db.current with inferences := updateFirstCls db.current.inferences eid c } := rfl

@[simp] theorem DB.updateCls_committed (db : DB) (eid : Nat) (c : Cls) :
    (db.updateCls eid c).committed = db.committed := rfl

@[simp] theorem firstInference_mk (em : List EmailRec) (us : List UserRec)
    (fb : List FeedbackRec) (inf : List InferenceRec) (eid : Nat) (k : String) :
    firstInference { emails := em, users := us, feedback := fb, inferences := inf } eid k =
      findInf inf eid k := rfl

theorem findInf_append (l₁ l₂ : List InferenceRec) (eid : Nat) (k : String) :
    findInf (l₁ ++ l₂) eid k =
      (findInf l₁ eid k).orElse (fun _ => findInf l₂ eid k) := by
  induction l₁ with
  | nil => simp [findInf]
  | cons r rest ih =>
    by_cases h : (r.emailId == eid && r.kind == k) = true
    · simp [findInf, h]
    · simp [findInf, h, ih]

theorem findInf_append_of_none (l₁ l₂ : List InferenceRec) (eid : Nat) (k : String)
    (h : findInf l₁ eid k = none) :
    findInf (l₁ ++ l₂) eid k = findInf l₂ eid k := by
  simp [findInf_append, h]

theorem findInf_append_of_some (l₁ l₂ : List InferenceRec) (eid : Nat) (k : String)
    (r : InferenceRec) (h : findInf l₁ eid k = some r) :
    findInf (l₁ ++ l₂) eid k = some r := by
  simp [findInf_append, h]

theorem findInf_singleton (r : InferenceRec) (eid : Nat) (k : String) :
    findInf [r] eid k = if r.emailId == eid && r.kind == k then some r else none := by
  simp [findInf]

/-- A found inference matches the query. -/
theorem findInf_matches (l : List InferenceRec) (eid : Nat) (k : String)
    (r : InferenceRec) (h : findInf l eid k = some r) :
    r.emailId = eid ∧ r.kind = k := by
  induction l with
  | nil => simp [findInf] at h
  | cons x rest ih =>
    by_cases hx : (x.emailId == eid && x.kind == k) = true
    · simp [findInf, hx] at h
      subst h
      simp only [Bool.and_eq_true, beq_iff_eq] at hx
      exact hx
    · simp [findInf, hx] at h
      exact ih h

/-- Updating the first classification row of eid rewrites exactly the row
findInf returns. -/
theorem findInf_updateFirstCls_self (l : List InferenceRec) (eid : Nat) (c : Cls) :
    findInf (updateFirstCls l eid c) eid "classification" =
      (findInf l eid "classification").map (fun r => { r with json := InfPayload.cls c }) := by
  induction l with
  | nil => simp [updateFirstCls, findInf]
  | cons r rest ih =>
    by_cases h : (r.emailId == eid && r.kind == "classification") = true
    · simp [updateFirstCls, findInf, h]
    · simp [updateFirstCls, findInf, h, ih]

/-- Updating a classification row leaves every other query unchanged. -/
theorem findInf_updateFirstCls_other (l : List InferenceRec) (eid : Nat) (c : Cls)
    (eid' : Nat) (k : String) (h : ¬(eid' = eid ∧ k = "classification")) :
    findInf (updateFirstCls l eid c) eid' k = findInf l eid' k := by
  induction l with
  | nil => simp [updateFirstCls]
  | cons r rest ih =>
    by_cases hr : (r.emailId == eid && r.kind == "classification") = true
    · have hne : (r.emailId == eid' && r.kind == k) = false := by
        simp only [Bool.and_eq_true, beq_iff_eq] at hr
        by_cases he : r.emailId = eid'
        · have : ¬ r.kind = k := by
            intro hk
            exact h ⟨by rw [← he, hr.1], by rw [← hk, hr.2]⟩
          simp [he, this]
        · simp [he]
      simp [updateFirstCls, hr, findInf, hne]
    · simp [updateFirstCls, hr, findInf, ih]

/-- Appending a non-summary row does not change an email's summary rows. -/
theorem summariesFor_append_other (l : List InferenceRec)
    (r : InferenceRec) (eid : Nat) (h : ¬(r.emailId = eid ∧ r.kind = "summary")) :
    (List.filter (fun x => x.emailId == eid && x.kind == "summary") (l ++ [r])) =
      List.filter (fun x => x.emailId == eid && x.kind == "summary") l := by
  have : (r.emailId == eid && r.kind == "summary") = false := by
    by_cases he : r.emailId = eid
    · have : ¬ r.kind = "summary" := fun hk => h ⟨he, hk⟩
      simp [he, this]
    · simp [he]
  simp [List.filter_append, this]

/-- Updating a classification row does not change any email's summary rows. -/
theorem filter_summary_updateFirstCls (l : List InferenceRec) (eid : Nat) (c : Cls)
    (eid' : Nat) :
    (List.filter (fun x => x.emailId == eid' && x.kind == "summary") (updateFirstCls l eid c)) =
      List.filter (fun x => x.emailId == eid' && x.kind == "summary") l := by
  induction l with
  | nil => simp [updateFirstCls]
  | cons r rest ih =>
    by_cases hr : (r.emailId == eid && r.kind == "classification") = true
    · have hk : r.kind = "classification" := by
        simp only [Bool.and_eq_true, beq_iff_eq] at hr
        exact hr.2
      have h1 : (r.emailId == eid' && r.kind == "summary") = false := by
        simp [hk]
      simp [updateFirstCls, hr, List.filter, h1]
    · simp only [updateFirstCls, hr, if_false, List.filter]
      cases h2 : (r.emailId == eid' && r.kind == "summary") <;> simp [ih]

/-! ### Claim C4: replied messages never display needs_reply -/

/-- C4: For every message with a non-null replied_at timestamp, the merged
display view produced by format_email_for_display has needs_reply = false,
even when the stored classification payload says action = needs_reply. -/
theorem replied_forces_needs_reply_false (email : EmailRec) (classification : Option Cls)
    (summary : Option String) (h : email.repliedAt.isSome) :
    (format_email_for_display email classification summary).needs_reply = false := by
  have hn : email.repliedAt.isNone = false := by
    cases hr : email.repliedAt
    · rw [hr] at h; simp at h
    · simp
  unfold format_email_for_display
  cases classification with
  | none => simp
  | some c =>
    by_cases hc : (c.isTruthyDict && c.action == some "needs_reply") = true
    · simp [hc, hn]
    · simp [hc]

/-- Witness for C4 at a concrete replied email. -/
theorem replied_forces_needs_reply_false_witness :
    (format_email_for_display repliedEmail (some needsReplyCls) none).needs_reply = false :=
  replied_forces_needs_reply_false repliedEmail (some needsReplyCls) none (by decide)

/-! ### Claim C5: bucket thresholds -/

set_option linter.unreachableTactic false in
set_option linter.unusedTactic false in
/-- The three threshold ranges of the bucketing if-chain. -/
theorem spamBucket_cases (s : ℚ) :
    ((0.7 : ℚ) ≤ s → spamBucket s = ("spam", "high")) ∧
    ((0.35 : ℚ) ≤ s ∧ s < 0.7 → spamBucket s = ("potential_spam", "medium")) ∧
    (s < (0.35 : ℚ) → spamBucket s = ("not_spam", if s < 0.15 then "high" else "low")) := by
  refine ⟨fun h => ?_, fun h => ?_, fun h => ?_⟩
  · unfold spamBucket
    split_ifs <;> first | rfl | linarith
  · obtain ⟨ha, hb⟩ := h
    unfold spamBucket
    split_ifs <;> first | rfl | linarith
  · unfold spamBucket
    split_ifs <;> first | rfl | linarith

/-- classify outputs exactly the bucket of its final score. -/
theorem classify_bucket (email : EmailRec) (st : Store) (uid : Option Nat)
    (snippet : String) (llm : Option Cls) :
    (MLSpamClassifier.classify email st uid snippet llm).classification =
      (spamBucket (MLSpamClassifier.classify email st uid snippet llm).ml_score).1 ∧
    (MLSpamClassifier.classify email st uid snippet llm).confidence =
      (spamBucket (MLSpamClassifier.classify email st uid snippet llm).ml_score).2 := by
  unfold MLSpamClassifier.classify
  exact ⟨rfl, rfl⟩

/-- C5: the final score is bucketed by the fixed thresholds: s ≥ 0.7 is spam
with high confidence, 0.35 ≤ s < 0.7 is potential_spam with medium
confidence, s < 0.35 is not_spam with confidence high iff s < 0.15; and
feature vectors engineered to score exactly 0.70 / 0.6999 / 0.3499 land in
spam / potential_spam / not_spam respectively. -/
theorem score_bucket_boundaries :
    (∀ (email : EmailRec) (st : Store) (uid : Option Nat) (snippet : String)
       (llm : Option Cls),
       ((0.7 : ℚ) ≤ (MLSpamClassifier.classify email st uid snippet llm).ml_score →
          (MLSpamClassifier.classify email st uid snippet llm).classification = "spam" ∧
          (MLSpamClassifier.classify email st uid snippet llm).confidence = "high") ∧
       ((0.35 : ℚ) ≤ (MLSpamClassifier.classify email st uid snippet llm).ml_score ∧
          (MLSpamClassifier.classify email st uid snippet llm).ml_score < 0.7 →
          (MLSpamClassifier.classify email st uid snippet llm).classification = "potential_spam" ∧
          (MLSpamClassifier.classify email st uid snippet llm).confidence = "medium") ∧
       ((MLSpamClassifier.classify email st uid snippet llm).ml_score < (0.35 : ℚ) →
          (MLSpamClassifier.classify email st uid snippet llm).classification = "not_spam" ∧
          (MLSpamClassifier.classify email st uid snippet llm).confidence =
            (if (MLSpamClassifier.classify email st uid snippet llm).ml_score < 0.15
             then "high" else "low"))) ∧
    (calculate_spam_score fvScore070 [] none = 0.7 ∧
       spamBucket 0.7 = ("spam", "high")) ∧
    (calculate_spam_score fvScore06999 [] none = 0.6999 ∧
       spamBucket 0.6999 = ("potential_spam", "medium")) ∧
    (calculate_spam_score fvScore03499 [] none = 0.3499 ∧
       spamBucket 0.3499 = ("not_spam", "low")) := by
  refine ⟨fun email st uid snippet llm => ?_,
    ⟨by with_unfolding_all rfl, by with_unfolding_all rfl⟩,
    ⟨by with_unfolding_all rfl, by with_unfolding_all rfl⟩,
    ⟨by with_unfolding_all rfl, by with_unfolding_all rfl⟩⟩
  obtain ⟨hc, hf⟩ := classify_bucket email st uid snippet llm
  obtain ⟨h1, h2, h3⟩ :=
    spamBucket_cases (MLSpamClassifier.classify email st uid snippet llm).ml_score
  refine ⟨fun h => ?_, fun h => ?_, fun h => ?_⟩
  · rw [hc, hf, h1 h]; exact ⟨rfl, rfl⟩
  · rw [hc, hf, h2 h]; exact ⟨rfl, rfl⟩
  · rw [hc, hf, h3 h]; exact ⟨rfl, rfl⟩

/-! ### Claim C6: money-keyword monotonicity -/

/-- The money-request guard is redundant: the term is linear in the count. -/
theorem money_guard_linear (m : Nat) :
    (if m + 1 > 0 then ((m + 1 : Nat) : ℚ) * 0.35 else 0) =
      (if m > 0 then (m : ℚ) * 0.35 else 0) + 0.35 := by
  rw [if_pos (Nat.succ_pos m)]
  by_cases h : m > 0
  · rw [if_pos h]; push_cast; ring
  · rw [if_neg h]
    have hm : m = 0 := by omega
    subst hm
    push_cast; ring

set_option maxHeartbeats 4000000 in
/-- C6: increasing money_request_count by one never decreases the computed
score and raises the additive sum by exactly 0.35 before the clamp. -/
theorem money_keyword_monotonic (f : Features) (fb : List FeedbackRec) (uid : Option Nat) :
    spamScoreRaw { f with money_request_count := f.money_request_count + 1 } fb uid =
      spamScoreRaw f fb uid + 0.35 ∧
    calculate_spam_score f fb uid ≤
      calculate_spam_score { f with money_request_count := f.money_request_count + 1 } fb uid := by
  have hraw : spamScoreRaw { f with money_request_count := f.money_request_count + 1 } fb uid =
      spamScoreRaw f fb uid + 0.35 := by
    unfold spamScoreRaw
    simp only []
    rw [money_guard_linear]
    ring
  refine ⟨hraw, ?_⟩
  unfold calculate_spam_score
  rw [hraw, qmax_eq_max, qmax_eq_max, qmin_eq_min, qmin_eq_min]
  exact max_le_max le_rfl (min_le_min le_rfl (by linarith))

/-! ### Claim C7: the oracle only boosts the score -/

/-- calculate_spam_score is clamped to at most 1. -/
theorem calculate_spam_score_le_one (f : Features) (fb : List FeedbackRec)
    (uid : Option Nat) : calculate_spam_score f fb uid ≤ 1 := by
  unfold calculate_spam_score
  rw [qmax_eq_max, qmin_eq_min]
  exact max_le (by norm_num) (min_le_left _ _)

/-- C7: an oracle classification marking the message spam adds a flat +0.30
(capped at 1) to the heuristic score; an absent or non-spam oracle result
leaves the score unchanged; hence the oracle can only raise the score. -/
theorem oracle_boost_only_raises (email : EmailRec) (st : Store) (uid : Option Nat)
    (snippet : String) (llm : Option Cls) :
    (∀ c, llm = some c → c.is_spam = some true →
       (MLSpamClassifier.classify email st uid snippet llm).ml_score =
         qmin 1 (calculate_spam_score (extract_features email snippet) st.feedback uid + 0.3)) ∧
    ((∀ c, llm = some c → c.is_spam ≠ some true) →
       (MLSpamClassifier.classify email st uid snippet llm).ml_score =
         calculate_spam_score (extract_features email snippet) st.feedback uid) ∧
    calculate_spam_score (extract_features email snippet) st.feedback uid ≤
      (MLSpamClassifier.classify email st uid snippet llm).ml_score := by
  refine ⟨?_, ?_, ?_⟩
  · intro c hl hs
    subst hl
    have htrue : llmIsSpamOf (some c) = true := by
      simp [llmIsSpamOf, Cls.isTruthyDict, hs]
    unfold MLSpamClassifier.classify
    simp [htrue]
  · intro hno
    have hfalse : llmIsSpamOf llm = false := by
      cases llm with
      | none => rfl
      | some c =>
        have hc := hno c rfl
        cases hsp : c.is_spam with
        | none => simp [llmIsSpamOf, hsp]
        | some b =>
          cases b with
          | true => exact absurd hsp hc
          | false => simp [llmIsSpamOf, hsp]
    unfold MLSpamClassifier.classify
    simp [hfalse]
  · cases hb : llmIsSpamOf llm with
    | false =>
      unfold MLSpamClassifier.classify
      simp [hb]
    | true =>
      unfold MLSpamClassifier.classify
      simp only [hb, if_true]
      rw [qmin_eq_min]
      exact le_min (calculate_spam_score_le_one _ _ _) (by linarith)

/-! ### Pipeline lemmas shared by the remaining claims -/

/-- MLSpamClassifier.classify reads the store only through its feedback
table. -/
theorem classify_feedback_congr (email : EmailRec) (st st' : Store) (uid : Option Nat)
    (snippet : String) (llm : Option Cls) (h : st.feedback = st'.feedback) :
    MLSpamClassifier.classify email st uid snippet llm =
      MLSpamClassifier.classify email st' uid snippet llm := by
  unfold MLSpamClassifier.classify
  rw [h]

/-- The ML merge only rewrites is_spam, spam_type and the ml fields. -/
theorem mlMergeInto_action (c : Cls) (m : MLResult) :
    (mlMergeInto c m).action = c.action := by
  unfold mlMergeInto
  by_cases h1 : (m.classification == "spam") = true <;>
    by_cases h2 : (m.classification == "potential_spam") = true <;>
      simp [h1, h2]

theorem mlMergeInto_priority (c : Cls) (m : MLResult) :
    (mlMergeInto c m).priority = c.priority := by
  unfold mlMergeInto
  by_cases h1 : (m.classification == "spam") = true <;>
    by_cases h2 : (m.classification == "potential_spam") = true <;>
      simp [h1, h2]

theorem mlMergeInto_is_sent (c : Cls) (m : MLResult) :
    (mlMergeInto c m).is_sent = c.is_sent := by
  unfold mlMergeInto
  by_cases h1 : (m.classification == "spam") = true <;>
    by_cases h2 : (m.classification == "potential_spam") = true <;>
      simp [h1, h2]

theorem mlMergeInto_is_spam (c : Cls) (m : MLResult) :
    (mlMergeInto c m).is_spam =
      (if m.classification == "spam" then some true
       else if m.classification == "potential_spam" then some false
       else c.is_spam) := by
  unfold mlMergeInto
  by_cases h1 : (m.classification == "spam") = true <;>
    by_cases h2 : (m.classification == "potential_spam") = true <;>
      simp [h1, h2]

theorem mlMergeInto_spam_type_isSome (c : Cls) (m : MLResult) :
    (mlMergeInto c m).spam_type.isSome = true := by
  unfold mlMergeInto
  by_cases h1 : (m.classification == "spam") = true <;>
    by_cases h2 : (m.classification == "potential_spam") = true <;>
      simp [h1, h2]

/-! ### Claim C1: sent-by-user short-circuit -/

/-- C1 (amended): for a fresh message detected as sent by the owning user,
process_email classifies it without invoking the rule engine or the remote
oracle, with priority low, action archive, is_sent true — but the Score
Model (ML classifier) is still invoked once, and it overrides is_spam: the
stored classification is spam exactly when the ML bucket is spam. -/
theorem sent_email_short_circuit (db : DB) (e : EmailRec) (co : Bool) (or : Oracle)
    (u : UserRec)
    (hu : lookupUser db.current e = some u)
    (hsent : is_sent_by_user e u = true)
    (hC : firstInference db.current e.id "classification" = none)
    (hS : firstInference db.current e.id "summary" = none)
    (hM : firstInference db.current e.id "ml_spam_classification" = none) :
    (process_email db e co or).2.1 = true ∧
    (process_email db e co or).2.2 =
      { ruleCalls := 0, oracleClassifyCalls := 0, oracleSummarizeCalls := 0, mlCalls := 1 } ∧
    firstInference (process_email db e co or).1.current e.id "classification" =
      some { emailId := e.id, kind := "classification",
             json := InfPayload.cls (mlMergeInto sentClassification
               (MLSpamClassifier.classify e db.current e.userId e.snippet
                 (some sentClassification))),
             model := MODEL_NAME } ∧
    (mlMergeInto sentClassification
        (MLSpamClassifier.classify e db.current e.userId e.snippet
          (some sentClassification))).priority = some "low" ∧
    (mlMergeInto sentClassification
        (MLSpamClassifier.classify e db.current e.userId e.snippet
          (some sentClassification))).action = some "archive" ∧
    (mlMergeInto sentClassification
        (MLSpamClassifier.classify e db.current e.userId e.snippet
          (some sentClassification))).is_sent = some true ∧
    ((mlMergeInto sentClassification
        (MLSpamClassifier.classify e db.current e.userId e.snippet
          (some sentClassification))).is_spam = some true ↔
      (MLSpamClassifier.classify e db.current e.userId e.snippet
        (some sentClassification)).classification = "spam") := by
  set mlr := MLSpamClassifier.classify e db.current e.userId e.snippet
    (some sentClassification) with hmlr
  set merged := mlMergeInto sentClassification mlr with hmerged
  set clsRow : InferenceRec :=
    { emailId := e.id, kind := "classification",
      json := InfPayload.cls sentClassification, model := MODEL_NAME } with hclsRow
  set db1 := (db.addInf clsRow).commit with hdb1
  set mlRow : InferenceRec :=
    { emailId := e.id, kind := "ml_spam_classification",
      json := InfPayload.ml mlr, model := "ml_heuristic_v1" } with hmlRow
  set dbB := (((db1.addInf mlRow).updateCls e.id merged)).commit with hdbB
  have hfb : db1.current.feedback = db.current.feedback := rfl
  have hclassify : MLSpamClassifier.classify e db1.current e.userId e.snippet
      (some sentClassification) = mlr := by
    rw [hmlr]
    exact classify_feedback_congr e db1.current db.current e.userId e.snippet
      (some sentClassification) hfb
  have hcwrl : classify_with_rules_and_llm or e (some u) =
      (Except.ok sentClassification, {}) := by
    unfold classify_with_rules_and_llm
    simp [hsent]
  have hstep2 : processStep2 db1 e co or sentClassification none none {} =
      (dbB, true, { ruleCalls := 0, oracleClassifyCalls := 0,
                    oracleSummarizeCalls := 0, mlCalls := 1 }) := by
    unfold processStep2
    simp only [hclassify, ← hmerged, ← hmlRow, ← hdbB]
    by_cases hspam : merged.is_spam.getD false = true
    · simp [hspam]
    · have haction : merged.action = some "archive" := by
        rw [hmerged, mlMergeInto_action]; rfl
      have hprio : merged.priority = some "low" := by
        rw [hmerged, mlMergeInto_priority]; rfl
      simp [hspam, haction, hprio]
  have hrun : process_email db e co or =
      (dbB, true, { ruleCalls := 0, oracleClassifyCalls := 0,
                    oracleSummarizeCalls := 0, mlCalls := 1 }) := by
    unfold process_email
    simp only [hC, hS, hM, hu, hcwrl, Option.isSome_none, Bool.false_and, Bool.and_false,
      Bool.false_eq_true, if_false]
    exact hstep2
  refine ⟨by rw [hrun], by rw [hrun], ?_, ?_, ?_, ?_, ?_⟩
  · rw [hrun]
    have hC' : findInf db.current.inferences e.id "classification" = none := hC
    have h1 : findInf (db.current.inferences ++ [clsRow]) e.id "classification" =
        some clsRow := by
      rw [findInf_append_of_none _ _ _ _ hC']
      simp [findInf, hclsRow]
    have hup : firstInference dbB.current e.id "classification" =
        some { clsRow with json := InfPayload.cls merged } := by
      rw [hdbB]
      simp only [DB.commit_current, DB.updateCls_current, DB.addInf_current,
        firstInference_mk]
      rw [findInf_updateFirstCls_self]
      have h2 : db1.current.inferences = db.current.inferences ++ [clsRow] := rfl
      rw [h2, findInf_append_of_some _ _ _ _ _ h1]
      rfl
    rw [hup]
  · rw [hmerged, mlMergeInto_priority]; rfl
  · rw [hmerged, mlMergeInto_action]; rfl
  · rw [hmerged, mlMergeInto_is_sent]; rfl
  · rw [hmerged, mlMergeInto_is_spam]
    by_cases h1 : (mlr.classification == "spam") = true
    · simp only [h1, if_true]
      simp only [beq_iff_eq] at h1
      simp [h1]
    · by_cases h2 : (mlr.classification == "potential_spam") = true
      · simp only [h1, h2]
        simp only [beq_iff_eq] at h1
        simp [h1]
      · simp only [h1, h2]
        simp only [beq_iff_eq] at h1
        simp [h1]
        intro hcontra
        exact absurd hcontra (by simp [sentClassification])

/-- C1 counterexample: on this sent message the Score Model IS invoked
(mlCalls = 1) and the stored classification ends with is_spam = true, so
the claimed fixed classification (is_spam = false regardless of content,
score model never invoked) fails at this input. -/
theorem sent_email_claim_counterexample :
    (process_email sentSpamDB sentSpamEmail false failingOracle).2.2.mlCalls = 1 ∧
    Option.map (fun r => r.json.asCls.is_spam)
      (firstInference (process_email sentSpamDB sentSpamEmail false failingOracle).1.current
        sentSpamEmail.id "classification") = some (some true) := by
  constructor
  · with_unfolding_all rfl
  · with_unfolding_all rfl

/-- Witness for the amended C1 at the concrete sent message. -/
theorem sent_email_short_circuit_witness :
    (process_email sentSpamDB sentSpamEmail false failingOracle).2.1 = true ∧
    (process_email sentSpamDB sentSpamEmail false failingOracle).2.2 =
      { ruleCalls := 0, oracleClassifyCalls := 0, oracleSummarizeCalls := 0, mlCalls := 1 } :=
  ⟨(sent_email_short_circuit sentSpamDB sentSpamEmail false failingOracle ownerUser
      (by with_unfolding_all rfl) (by with_unfolding_all rfl) rfl rfl rfl).1,
   (sent_email_short_circuit sentSpamDB sentSpamEmail false failingOracle ownerUser
      (by with_unfolding_all rfl) (by with_unfolding_all rfl) rfl rfl rfl).2.1⟩

/-! ### Sorting lemmas for the batch scheduler -/

theorem insertByDescK_perm (kgt : EmailRec → EmailRec → Bool) (e : EmailRec) :
    ∀ l : List EmailRec, List.Perm (insertByDescK kgt e l) (e :: l) := by
  intro l
  induction l with
  | nil => exact List.Perm.refl _
  | cons x xs ih =>
    unfold insertByDescK
    by_cases hk : kgt e x = true
    · rw [if_pos hk]
    · rw [if_neg hk]
      exact (ih.cons x).trans (List.Perm.swap e x xs)

theorem sortByDescK_perm (kgt : EmailRec → EmailRec → Bool) :
    ∀ l : List EmailRec, List.Perm (sortByDescK kgt l) l := by
  intro l
  induction l with
  | nil => exact List.Perm.refl _
  | cons x xs ih =>
    unfold sortByDescK
    exact (insertByDescK_perm kgt x (sortByDescK kgt xs)).trans (ih.cons x)

/-- Inserting into a list sorted by descending receivedAt keeps it sorted. -/
theorem insertByDescK_sorted_received (e : EmailRec) :
    ∀ l : List EmailRec,
      l.Pairwise (fun a b => b.receivedAt ≤ a.receivedAt) →
      (insertByDescK (fun a b => decide (b.receivedAt < a.receivedAt)) e l).Pairwise
        (fun a b => b.receivedAt ≤ a.receivedAt) := by
  intro l
  induction l with
  | nil =>
    intro _
    unfold insertByDescK
    exact List.pairwise_singleton _ _
  | cons x xs ih =>
    intro h
    rw [List.pairwise_cons] at h
    obtain ⟨hx, hxs⟩ := h
    unfold insertByDescK
    by_cases hk : decide (x.receivedAt < e.receivedAt) = true
    · rw [if_pos hk]
      rw [decide_eq_true_iff] at hk
      refine List.pairwise_cons.2 ⟨?_, List.pairwise_cons.2 ⟨hx, hxs⟩⟩
      intro y hy
      rcases List.mem_cons.1 hy with hy | hy
      · subst hy; exact le_of_lt hk
      · exact le_trans (hx y hy) (le_of_lt hk)
    · rw [if_neg hk]
      rw [decide_eq_true_iff] at hk
      push_neg at hk
      refine List.pairwise_cons.2 ⟨?_, ih hxs⟩
      intro y hy
      rcases List.mem_cons.1 ((insertByDescK_perm _ e xs).mem_iff.1 hy) with hy3 | hy3
      · rw [hy3]; exact hk
      · exact hx y hy3

theorem sortByDescK_sorted_received :
    ∀ l : List EmailRec,
      (sortByDescK (fun a b => decide (b.receivedAt < a.receivedAt)) l).Pairwise
        (fun a b => b.receivedAt ≤ a.receivedAt) := by
  intro l
  induction l with
  | nil => exact List.Pairwise.nil
  | cons x xs ih =>
    unfold sortByDescK
    exact insertByDescK_sorted_received x _ ih

/-! ### Claim C8: batch selection, order and stop conditions -/

/-- C8: process_new_emails selects exactly the messages lacking a
classification or lacking a summary; the candidate list is ordered by
non-increasing received_at (strictly descending when the timestamps are
pairwise distinct); and on every loop iteration the two stop conditions
are evaluated: the loop halts as soon as processed_count reaches a set
max_emails, or non_spam_count reaches a set target_non_spam. -/
theorem batch_selection_order_and_stops :
    (∀ (st : Store) (e : EmailRec),
       e ∈ selectUnprocessed st ↔
         e ∈ st.emails ∧
           (firstInference st e.id "classification" = none ∨
            firstInference st e.id "summary" = none)) ∧
    (∀ st : Store, (selectUnprocessed st).Pairwise
        (fun a b => b.receivedAt ≤ a.receivedAt)) ∧
    (∀ st : Store, st.emails.Pairwise (fun a b => a.receivedAt ≠ b.receivedAt) →
       (selectUnprocessed st).Pairwise (fun a b => b.receivedAt < a.receivedAt)) ∧
    (∀ (oracle : Oracle) (co : Bool) (mx tgt : Option Nat) (db : DB) (e : EmailRec)
       (rest : List EmailRec) (pc nc : Nat),
       optTruthy mx = true → pc ≥ mx.getD 0 →
       processLoop oracle co mx tgt db (e :: rest) pc nc = (db, pc, nc)) ∧
    (∀ (oracle : Oracle) (co : Bool) (mx tgt : Option Nat) (db : DB) (e : EmailRec)
       (rest : List EmailRec) (pc nc : Nat),
       ¬(optTruthy mx = true ∧ pc ≥ mx.getD 0) →
       optTruthy tgt = true → nc ≥ tgt.getD 0 →
       processLoop oracle co mx tgt db (e :: rest) pc nc = (db, pc, nc)) := by
  have hconv : ∀ o : Option InferenceRec, (!o.isSome) = true ↔ o = none := by
    intro o; cases o <;> simp
  refine ⟨?_, ?_, ?_, ?_, ?_⟩
  · intro st e
    unfold selectUnprocessed
    rw [(sortByDescK_perm _ _).mem_iff, List.mem_filter]
    constructor
    · rintro ⟨h1, h2⟩
      refine ⟨h1, ?_⟩
      simp only [hasInfB, Bool.or_eq_true, hconv] at h2
      exact h2
    · rintro ⟨h1, h2⟩
      refine ⟨h1, ?_⟩
      simp only [hasInfB, Bool.or_eq_true, hconv]
      exact h2
  · intro st
    exact sortByDescK_sorted_received _
  · intro st hdist
    have hsym : ∀ {a b : EmailRec}, a.receivedAt ≠ b.receivedAt → b.receivedAt ≠ a.receivedAt :=
      fun h => h.symm
    have hsorted := sortByDescK_sorted_received
      (st.emails.filter (fun e =>
        !(hasInfB st e.id "classification") || !(hasInfB st e.id "summary")))
    have hdist2 : (st.emails.filter (fun e =>
        !(hasInfB st e.id "classification") || !(hasInfB st e.id "summary"))).Pairwise
        (fun a b => a.receivedAt ≠ b.receivedAt) :=
      hdist.sublist (List.filter_sublist _)
    have hdist3 : (selectUnprocessed st).Pairwise
        (fun a b => a.receivedAt ≠ b.receivedAt) := by
      unfold selectUnprocessed
      exact ((sortByDescK_perm _ _).pairwise_iff hsym).2 hdist2
    exact (hsorted.and hdist3).imp (fun {a b} h => lt_of_le_of_ne h.1 h.2.symm)
  · intro oracle co mx tgt db e rest pc nc h1 h2
    unfold processLoop
    simp [h1, h2]
  · intro oracle co mx tgt db e rest pc nc h1 h2 h3
    unfold processLoop
    have hfalse : (optTruthy mx && decide (pc ≥ mx.getD 0)) = false := by
      cases hmx : optTruthy mx
      · simp
      · simp only [Bool.true_and]
        rw [decide_eq_false_iff_not]
        intro hge
        exact h1 ⟨hmx, hge⟩
    simp [hfalse, h2, h3]

/-- Witness for C8's conditional clauses at concrete inputs. -/
theorem batch_selection_order_and_stops_witness :
    (selectUnprocessed sentSpamStore).Pairwise (fun a b => b.receivedAt < a.receivedAt) ∧
    processLoop failingOracle false (some 1) none sentSpamDB [sentSpamEmail] 1 0 =
      (sentSpamDB, 1, 0) ∧
    processLoop failingOracle false none (some 1) sentSpamDB [sentSpamEmail] 0 1 =
      (sentSpamDB, 0, 1) :=
  ⟨batch_selection_order_and_stops.2.2.1 sentSpamStore
     (by exact List.pairwise_singleton _ _),
   batch_selection_order_and_stops.2.2.2.1 failingOracle false (some 1) none sentSpamDB
     sentSpamEmail [] 1 0 rfl (by decide),
   batch_selection_order_and_stops.2.2.2.2 failingOracle false none (some 1) sentSpamDB
     sentSpamEmail [] 0 1 (by simp [optTruthy]) rfl (by decide)⟩

/-! ### Claim C10: zero limits disable the stopping rules -/

theorem processLoop_zero_max (oracle : Oracle) (co : Bool) (tgt : Option Nat) :
    ∀ (l : List EmailRec) (db : DB) (pc nc : Nat),
      processLoop oracle co (some 0) tgt db l pc nc =
        processLoop oracle co none tgt db l pc nc := by
  intro l
  induction l with
  | nil => intro db pc nc; rfl
  | cons e rest ih =>
    intro db pc nc
    unfold processLoop
    simp only [optTruthy, bne_self_eq_false, Bool.false_and, Bool.false_eq_true,
      if_false, ih]

theorem processLoop_zero_target (oracle : Oracle) (co : Bool) (mx : Option Nat) :
    ∀ (l : List EmailRec) (db : DB) (pc nc : Nat),
      processLoop oracle co mx (some 0) db l pc nc =
        processLoop oracle co mx none db l pc nc := by
  intro l
  induction l with
  | nil => intro db pc nc; rfl
  | cons e rest ih =>
    intro db pc nc
    unfold processLoop
    simp only [optTruthy, bne_self_eq_false, Bool.false_and, Bool.false_eq_true,
      if_false, ih]

theorem processLoop_max_bound (oracle : Oracle) (co : Bool) (m : Nat) (tgt : Option Nat)
    (hm : 0 < m) :
    ∀ (l : List EmailRec) (db : DB) (pc nc : Nat), pc ≤ m →
      (processLoop oracle co (some m) tgt db l pc nc).2.1 ≤ m := by
  intro l
  induction l with
  | nil => intro db pc nc hpc; exact hpc
  | cons e rest ih =>
    intro db pc nc hpc
    unfold processLoop
    by_cases h1 : (optTruthy (some m) && decide (pc ≥ (some m).getD 0)) = true
    · rw [if_pos h1]; exact hpc
    · rw [if_neg h1]
      have hlt : pc < m := by
        simp only [optTruthy, Bool.and_eq_true, decide_eq_true_iff, Option.getD_some,
          bne_iff_ne] at h1
        by_contra hge
        exact h1 ⟨Nat.pos_iff_ne_zero.mp hm, by omega⟩
      by_cases h2 : (optTruthy tgt && decide (nc ≥ tgt.getD 0)) = true
      · rw [if_pos h2]; exact hpc
      · rw [if_neg h2]
        by_cases h3 : ((firstInference db.current e.id "classification").isSome &&
            (firstInference db.current e.id "summary").isSome) = true
        · rw [if_pos h3]; exact ih db pc nc hpc
        · rw [if_neg h3]
          by_cases h4 : (process_email db e co oracle).2.1 = true
          · rw [if_pos h4]; exact ih _ (pc + 1) _ (by omega)
          · rw [if_neg h4]; exact ih _ pc nc hpc

theorem processLoop_target_bound (oracle : Oracle) (co : Bool) (mx : Option Nat) (t : Nat)
    (ht : 0 < t) :
    ∀ (l : List EmailRec) (db : DB) (pc nc : Nat), nc ≤ t →
      (processLoop oracle co mx (some t) db l pc nc).2.2 ≤ t := by
  intro l
  induction l with
  | nil => intro db pc nc hnc; exact hnc
  | cons e rest ih =>
    intro db pc nc hnc
    unfold processLoop
    by_cases h1 : (optTruthy mx && decide (pc ≥ mx.getD 0)) = true
    · rw [if_pos h1]; exact hnc
    · rw [if_neg h1]
      by_cases h2 : (optTruthy (some t) && decide (nc ≥ (some t).getD 0)) = true
      · rw [if_pos h2]; exact hnc
      · rw [if_neg h2]
        have hlt : nc < t := by
          simp only [optTruthy, Bool.and_eq_true, decide_eq_true_iff, Option.getD_some,
            bne_iff_ne] at h2
          by_contra hge
          exact h2 ⟨Nat.pos_iff_ne_zero.mp ht, by omega⟩
        by_cases h3 : ((firstInference db.current e.id "classification").isSome &&
            (firstInference db.current e.id "summary").isSome) = true
        · rw [if_pos h3]; exact ih db pc nc hnc
        · rw [if_neg h3]
          by_cases h4 : (process_email db e co oracle).2.1 = true
          · rw [if_pos h4]
            refine ih _ (pc + 1) _ ?_
            cases firstInference (process_email db e co oracle).1.current e.id
                "classification" with
            | none => exact hnc
            | some inf =>
              simp only []
              by_cases h5 : (!(inf.json.asCls.is_spam.getD false)) = true
              · rw [if_pos h5]; omega
              · rw [if_neg h5]; exact hnc
          · rw [if_neg h4]; exact ih _ pc nc hnc

/-- C10: a zero max_emails or target_non_spam is falsy in the loop's stop
checks, so it disables that limit (the run behaves exactly as with None);
the stopping rules bound the counts only for strictly positive limits. -/
theorem zero_limit_disables_stop :
    (∀ (db : DB) (tgt : Option Nat) (co : Bool) (oracle : Oracle),
       process_new_emails db (some 0) tgt co oracle =
         process_new_emails db none tgt co oracle) ∧
    (∀ (db : DB) (mx : Option Nat) (co : Bool) (oracle : Oracle),
       process_new_emails db mx (some 0) co oracle =
         process_new_emails db mx none co oracle) ∧
    (∀ (db : DB) (tgt : Option Nat) (co : Bool) (oracle : Oracle) (m : Nat), 0 < m →
       (process_new_emails db (some m) tgt co oracle).2 ≤ m) ∧
    (∀ (oracle : Oracle) (co : Bool) (mx : Option Nat) (db : DB) (l : List EmailRec)
       (t : Nat), 0 < t →
       (processLoop oracle co mx (some t) db l 0 0).2.2 ≤ t) := by
  refine ⟨?_, ?_, ?_, ?_⟩
  · intro db tgt co oracle
    unfold process_new_emails
    simp only [processLoop_zero_max oracle co tgt]
  · intro db mx co oracle
    unfold process_new_emails
    simp only [processLoop_zero_target oracle co mx]
  · intro db tgt co oracle m hm
    unfold process_new_emails
    exact processLoop_max_bound oracle co m tgt hm _ db 0 0 (by omega)
  · intro oracle co mx db l t ht
    exact processLoop_target_bound oracle co mx t ht l db 0 0 (by omega)

/-- Witness for C10 at concrete inputs. -/
theorem zero_limit_disables_stop_witness :
    process_new_emails sentSpamDB (some 0) none false failingOracle =
      process_new_emails sentSpamDB none none false failingOracle ∧
    (process_new_emails sentSpamDB (some 1) none false failingOracle).2 ≤ 1 :=
  ⟨zero_limit_disables_stop.1 sentSpamDB none false failingOracle,
   zero_limit_disables_stop.2.2.1 sentSpamDB none false failingOracle 1 (by decide)⟩

/-- Witness for C5's threshold clause at a concrete classifier run whose
final score is exactly 0.7. -/
theorem score_bucket_boundaries_witness :
    (MLSpamClassifier.classify sentSpamEmail sentSpamStore (some 1) "" none).classification =
      "spam" ∧
    (MLSpamClassifier.classify sentSpamEmail sentSpamStore (some 1) "" none).confidence =
      "high" :=
  (score_bucket_boundaries.1 sentSpamEmail sentSpamStore (some 1) "" none).1
    (by with_unfolding_all rfl)

/-- Witness for C7 at a concrete email and an oracle spam verdict. -/
theorem oracle_boost_only_raises_witness :
    (MLSpamClassifier.classify sentSpamEmail sentSpamStore (some 1) ""
        (some spamSayingCls)).ml_score =
      qmin 1 (calculate_spam_score (extract_features sentSpamEmail "")
        sentSpamStore.feedback (some 1) + 0.3) :=
  (oracle_boost_only_raises sentSpamEmail sentSpamStore (some 1) "" (some spamSayingCls)).1
    spamSayingCls rfl rfl

/-! ### Claim C9: failure isolation -/

theorem findInf_append_single_other (l : List InferenceRec) (r : InferenceRec)
    (eid : Nat) (k : String) (h : ¬(r.emailId = eid ∧ r.kind = k)) :
    findInf (l ++ [r]) eid k = findInf l eid k := by
  rw [findInf_append]
  cases hfi : findInf l eid k with
  | some x => rfl
  | none =>
    have : (r.emailId == eid && r.kind == k) = false := by
      by_cases he : r.emailId = eid
      · have : ¬ r.kind = k := fun hk => h ⟨he, hk⟩
        simp [he, this]
      · simp [he]
    simp [findInf, this]

/-- A failing processStep2 run leaves a rolled-back session. -/
theorem processStep2_false_rollback (db : DB) (e : EmailRec) (co : Bool) (oracle : Oracle)
    (cls : Cls) (eS eM : Option InferenceRec) (tr : Trace) (db' : DB) (tr' : Trace)
    (h : processStep2 db e co oracle cls eS eM tr = (db', false, tr')) :
    db'.current = db'.committed := by
  unfold processStep2 at h
  cases eM with
  | none =>
    simp only [] at h
    split at h
    · simp at h
    · split at h
      · split at h
        · simp at h
        · injection h with h1 h2
          subst h1
          rfl
      · simp at h
  | some row =>
    simp only [] at h
    split at h
    all_goals (
      split at h
      · simp at h
      · split at h
        · split at h
          · simp at h
          · injection h with h1 h2
            subst h1
            rfl
        · simp at h)

/-- A failing processStep2 run keeps the email table and leaves the email
without a summary row (given a clean session whose summary row is eS). -/
theorem processStep2_false_state (db : DB) (e : EmailRec) (co : Bool) (oracle : Oracle)
    (cls : Cls) (eS eM : Option InferenceRec) (tr : Trace) (db' : DB) (tr' : Trace)
    (hclean : db.current = db.committed)
    (hS : firstInference db.current e.id "summary" = eS)
    (h : processStep2 db e co oracle cls eS eM tr = (db', false, tr')) :
    db'.current.emails = db.current.emails ∧
    firstInference db'.current e.id "summary" = none := by
  unfold processStep2 at h
  cases eM with
  | none =>
    simp only [] at h
    split at h
    · simp at h
    · rename_i hgate
      split at h
      · rename_i hss
        split at h
        · simp at h
        · injection h with h1 h2
          subst h1
          have heS : eS = none := by
            simp only [Bool.and_eq_true, Option.isNone_iff_eq_none] at hss
            exact hss.1.2
          constructor
          · rfl
          · simp only [DB.rollback_current, DB.commit_committed, DB.updateCls_current,
              DB.addInf_current, firstInference_mk]
            rw [findInf_updateFirstCls_other _ _ _ _ _ (by simp)]
            rw [findInf_append_single_other _ _ _ _ (by simp)]
            exact hS.trans heS
      · simp at h
  | some row =>
    simp only [] at h
    split at h
    all_goals (
      split at h
      · simp at h
      · rename_i hgate
        split at h
        · rename_i hss
          split at h
          · simp at h
          · injection h with h1 h2
            subst h1
            have heS : eS = none := by
              simp only [Bool.and_eq_true, Option.isNone_iff_eq_none] at hss
              exact hss.1.2
            constructor
            · simp [hclean]
            · simp only [DB.rollback_current, ← hclean]
              exact hS.trans heS
        · simp at h)

/-- C9: a failing stage inside process_email ends in rollback and returns
False instead of raising; the batch loop then continues with the next
candidate (counting only successes), and a failed message still lacks a
classification or a summary, so it stays eligible for the next run. -/
theorem single_failure_isolated :
    (∀ (db : DB) (e : EmailRec) (co : Bool) (oracle : Oracle) (db' : DB) (tr : Trace),
        process_email db e co oracle = (db', false, tr) →
        db'.current = db'.committed) ∧
    (∀ (db : DB) (e : EmailRec) (co : Bool) (oracle : Oracle) (db' : DB) (tr : Trace),
        db.current = db.committed →
        process_email db e co oracle = (db', false, tr) →
        db'.current.emails = db.current.emails ∧
        (firstInference db'.current e.id "classification" = none ∨
         firstInference db'.current e.id "summary" = none)) ∧
    (∀ (oracle : Oracle) (co : Bool) (mx tgt : Option Nat) (db : DB) (e : EmailRec)
        (rest : List EmailRec) (pc nc : Nat) (db' : DB) (tr : Trace),
        ¬(optTruthy mx = true ∧ pc ≥ mx.getD 0) →
        ¬(optTruthy tgt = true ∧ nc ≥ tgt.getD 0) →
        ¬((firstInference db.current e.id "classification").isSome = true ∧
          (firstInference db.current e.id "summary").isSome = true) →
        process_email db e co oracle = (db', false, tr) →
        processLoop oracle co mx tgt db (e :: rest) pc nc =
          processLoop oracle co mx tgt db' rest pc nc) := by
  refine ⟨?_, ?_, ?_⟩
  · intro db e co oracle db' tr h
    unfold process_email at h
    simp only [] at h
    split at h
    · simp at h
    · split at h
      · exact processStep2_false_rollback _ _ _ _ _ _ _ _ _ _ h
      · split at h
        · injection h with h1 h2
          subst h1
          rfl
        · exact processStep2_false_rollback _ _ _ _ _ _ _ _ _ _ h
  · intro db e co oracle db' tr hclean h
    unfold process_email at h
    simp only [] at h
    split at h
    · simp at h
    · split at h
      · rename_i hCrow
        obtain ⟨h1, h2⟩ := processStep2_false_state _ _ _ _ _ _ _ _ _ _ hclean rfl h
        exact ⟨h1, Or.inr h2⟩
      · rename_i hCnone
        split at h
        · injection h with h1 h2
          subst h1
          refine ⟨by simp [hclean], Or.inl ?_⟩
          simp only [DB.rollback_current, ← hclean]
          exact hCnone
        · rename_i cls0 tr0 heq0
          have hclean1 : ((db.addInf { emailId := e.id, kind := "classification", json := InfPayload.cls cls0, model := MODEL_NAME }).commit).current = ((db.addInf { emailId := e.id, kind := "classification", json := InfPayload.cls cls0, model := MODEL_NAME }).commit).committed := rfl
          have hS1 : firstInference ((db.addInf { emailId := e.id, kind := "classification", json := InfPayload.cls cls0, model := MODEL_NAME }).commit).current e.id "summary" = firstInference db.current e.id "summary" := by
            simp only [DB.commit_current, DB.addInf_current, firstInference_mk]
            exact findInf_append_single_other _ _ _ _ (by simp)
          obtain ⟨h1, h2⟩ := processStep2_false_state _ _ _ _ _ _ _ _ _ _ hclean1 hS1 h
          refine ⟨h1, Or.inr h2⟩
  · intro oracle co mx tgt db e rest pc nc db' tr h1 h2 h3 h4
    have hc1 : (optTruthy mx && decide (pc ≥ mx.getD 0)) = false := by
      cases hmx : optTruthy mx
      · simp
      · simp only [Bool.true_and]
        rw [decide_eq_false_iff_not]
        intro hge
        exact h1 ⟨hmx, hge⟩
    have hc2 : (optTruthy tgt && decide (nc ≥ tgt.getD 0)) = false := by
      cases htgt : optTruthy tgt
      · simp
      · simp only [Bool.true_and]
        rw [decide_eq_false_iff_not]
        intro hge
        exact h2 ⟨htgt, hge⟩
    have hc3 : ((firstInference db.current e.id "classification").isSome &&
        (firstInference db.current e.id "summary").isSome) = false := by
      cases ha : (firstInference db.current e.id "classification").isSome
      · simp
      · simp only [Bool.true_and]
        cases hb : (firstInference db.current e.id "summary").isSome
        · rfl
        · exact absurd ⟨ha, hb⟩ h3
    conv_lhs => unfold processLoop
    simp only [hc1, hc2, hc3, Bool.false_eq_true, if_false, h4]

/-- Witness for C9: under a failing transport the classification stage
fails; the session is rolled back, the message keeps no classification row,
and the loop moves on. -/
theorem single_failure_isolated_witness :
    ((process_email plainDB plainEmail false failingOracle).1.current =
      (process_email plainDB plainEmail false failingOracle).1.committed) ∧
    (firstInference (process_email plainDB plainEmail false failingOracle).1.current
        plainEmail.id "classification" = none ∨
     firstInference (process_email plainDB plainEmail false failingOracle).1.current
        plainEmail.id "summary" = none) ∧
    processLoop failingOracle false none none plainDB [plainEmail] 0 0 =
      processLoop failingOracle false none none
        (process_email plainDB plainEmail false failingOracle).1 [] 0 0 :=
  have h : process_email plainDB plainEmail false failingOracle =
      ((process_email plainDB plainEmail false failingOracle).1, false,
       (process_email plainDB plainEmail false failingOracle).2.2) := by
    with_unfolding_all rfl
  ⟨single_failure_isolated.1 plainDB plainEmail false failingOracle _ _ h,
   (single_failure_isolated.2.1 plainDB plainEmail false failingOracle _ _ rfl h).2,
   single_failure_isolated.2.2 failingOracle false none none plainDB plainEmail [] 0 0 _ _
     (by simp [optTruthy]) (by simp [optTruthy]) (by decide) h⟩

/-! ### Claim C3: spam messages are never summarized -/

@[simp] theorem summariesFor_mk (em : List EmailRec) (us : List UserRec)
    (fb : List FeedbackRec) (inf : List InferenceRec) (eid : Nat) :
    summariesFor { emails := em, users := us, feedback := fb, inferences := inf } eid =
      List.filter (fun r => r.emailId == eid && r.kind == "summary") inf := rfl

/-- The cached-ML spam_type patch does not change is_spam. -/
theorem patch_preserves_is_spam (cls : Cls) (s : String) :
    (if cls.spam_type.isNone then { cls with spam_type := some s } else cls).is_spam =
      cls.is_spam := by
  split <;> rfl

/-- In processStep2, if the stored classification row ends up spam, no
summary row is created and the summarize oracle is not called. -/
theorem processStep2_spam_no_summary (db : DB) (e : EmailRec) (co : Bool) (oracle : Oracle)
    (cls : Cls) (eS eM : Option InferenceRec) (tr : Trace) (db' : DB) (b : Bool)
    (tr' : Trace) (rowIn : InferenceRec)
    (hclean : db.current = db.committed)
    (hIn : firstInference db.current e.id "classification" = some rowIn)
    (hcls : rowIn.json.asCls = cls)
    (h : processStep2 db e co oracle cls eS eM tr = (db', b, tr')) :
    ∀ row', firstInference db'.current e.id "classification" = some row' →
      row'.json.asCls.is_spam.getD false = true →
      summariesFor db'.current e.id = summariesFor db.current e.id ∧
      tr'.oracleSummarizeCalls = tr.oracleSummarizeCalls := by
  have hIn' : findInf db.current.inferences e.id "classification" = some rowIn := hIn
  cases eM with
  | none =>
    unfold processStep2 at h
    simp only [] at h
    set mlr := MLSpamClassifier.classify e db.current e.userId e.snippet (some cls)
      with hmlr
    set merged := mlMergeInto cls mlr with hmerged
    set mlRow : InferenceRec := { emailId := e.id, kind := "ml_spam_classification", json := InfPayload.ml mlr, model := "ml_heuristic_v1" } with hmlRow
    set updated := updateFirstCls (db.current.inferences ++ [mlRow]) e.id merged with hupd
    have hfind : findInf updated e.id "classification" =
        some { rowIn with json := InfPayload.cls merged } := by
      rw [hupd, findInf_updateFirstCls_self,
        findInf_append_single_other _ _ _ _ (by simp [hmlRow]), hIn']
      rfl
    have hsumlist : List.filter (fun r => r.emailId == e.id && r.kind == "summary") updated =
        summariesFor db.current e.id := by
      rw [hupd, filter_summary_updateFirstCls, List.filter_append]
      have : List.filter (fun r => r.emailId == e.id && r.kind == "summary") [mlRow] = [] := by
        simp [hmlRow, List.filter]
      rw [this, List.append_nil]
      rfl
    split at h
    · rename_i hgate
      injection h with h1 h2
      injection h2 with h2 h3
      subst h1 h3
      intro row' hrow2 hspam
      constructor
      · unfold summariesFor
        exact hsumlist
      · rfl
    · rename_i hgate
      split at h
      · split at h
        · injection h with h1 h2
          injection h2 with h2 h3
          subst h1 h3
          intro row' hrow2 hspam
          exfalso
          unfold firstInference at hrow2
          simp only [DB.commit_current, DB.addInf_current] at hrow2
          rw [findInf_append_single_other _ _ _ _ (by simp)] at hrow2
          rw [show ((db.addInf mlRow).updateCls e.id merged).current.inferences = updated from rfl] at hrow2
          rw [hfind] at hrow2
          injection hrow2 with hrow3
          subst hrow3
          exact hgate hspam
        · injection h with h1 h2
          injection h2 with h2 h3
          subst h1 h3
          intro row' hrow2 hspam
          exfalso
          unfold firstInference at hrow2
          simp only [DB.rollback_current, DB.commit_committed] at hrow2
          rw [show ((db.addInf mlRow).updateCls e.id merged).current.inferences = updated from rfl] at hrow2
          rw [hfind] at hrow2
          injection hrow2 with hrow3
          subst hrow3
          exact hgate hspam
      · injection h with h1 h2
        injection h2 with h2 h3
        subst h1 h3
        intro row' hrow2 hspam
        exfalso
        unfold firstInference at hrow2
        rw [show (((db.addInf mlRow).updateCls e.id merged).commit).current.inferences = updated from rfl] at hrow2
        rw [hfind] at hrow2
        injection hrow2 with hrow3
        subst hrow3
        exact hgate hspam
  | some mrow =>
    unfold processStep2 at h
    simp only [] at h
    split at h
    all_goals (
      split at h
      · rename_i hgate
        injection h with h1 h2
        injection h2 with h2 h3
        subst h1 h3
        intro row' hrow2 hspam
        exact ⟨rfl, rfl⟩
      · rename_i hgate
        split at h
        · split at h
          · injection h with h1 h2
            injection h2 with h2 h3
            subst h1 h3
            intro row' hrow2 hspam
            exfalso
            unfold firstInference at hrow2
            simp only [DB.commit_current, DB.addInf_current] at hrow2
            rw [findInf_append_single_other _ _ _ _ (by simp)] at hrow2
            rw [hIn'] at hrow2
            injection hrow2 with hrow3
            subst hrow3
            rw [hcls] at hspam
            exact hgate hspam
          · injection h with h1 h2
            injection h2 with h2 h3
            subst h1 h3
            intro row' hrow2 hspam
            exfalso
            simp only [DB.rollback_current, ← hclean] at hrow2
            rw [hIn] at hrow2
            injection hrow2 with hrow3
            subst hrow3
            rw [hcls] at hspam
            exact hgate hspam
        · injection h with h1 h2
          injection h2 with h2 h3
          subst h1 h3
          intro row' hrow2 hspam
          exfalso
          rw [hIn] at hrow2
          injection hrow2 with hrow3
          subst hrow3
          rw [hcls] at hspam
          exact hgate hspam)

/-- The background summarize loop never touches summary rows of an email
that is not among its candidates. -/
theorem summarizeLoop_other_ids (oracle : Oracle) (eid : Nat) :
    ∀ (sel : List EmailRec) (db : DB) (count : Nat),
      db.current = db.committed →
      (∀ x ∈ sel, x.id ≠ eid) →
      summariesFor (summarizeLoop oracle db sel count).1.current eid =
        summariesFor db.current eid := by
  intro sel
  induction sel with
  | nil => intro db count hclean hne; rfl
  | cons x rest ih =>
    intro db count hclean hne
    unfold summarizeLoop
    cases hs : oracle.summarizeEmail x.subject x.snippet "" with
    | ok summ =>
      simp only []
      have hxne : x.id ≠ eid := hne x (List.mem_cons_self x rest)
      have hstep := ih ((db.addInf { emailId := x.id, kind := "summary", json := InfPayload.summ summ, model := MODEL_NAME }).commit) (count + 1) rfl
        (fun y hy => hne y (List.mem_cons_of_mem x hy))
      rw [hstep]
      unfold summariesFor
      simp only [DB.commit_current, DB.addInf_current]
      exact summariesFor_append_other _ _ _ (fun hc => hxne hc.1)
    | error err =>
      simp only []
      have hstep := ih db.rollback count (by simp)
        (fun y hy => hne y (List.mem_cons_of_mem x hy))
      rw [hstep]
      unfold summariesFor
      simp only [DB.rollback_current, ← hclean]

/-- classify_with_rules_and_llm never counts a summarize call. -/
theorem cwrl_summarize_zero (oracle : Oracle) (e : EmailRec) (user : Option UserRec) :
    (classify_with_rules_and_llm oracle e user).2.oracleSummarizeCalls = 0 := by
  cases user with
  | none =>
    show (classifyWithRulesRest oracle e).2.oracleSummarizeCalls = 0
    unfold classifyWithRulesRest
    split <;> rfl
  | some u =>
    unfold classify_with_rules_and_llm
    by_cases hs : is_sent_by_user e u = true
    · simp [hs]
    · simp only [hs, Bool.false_eq_true, if_false]
      unfold classifyWithRulesRest
      split <;> rfl

/-- C3: a message whose stored (merged) classification says is_spam=true
never gets a summary inference row: process_email stops before its
summarization step, and summarize_pending_emails filters the message out
of its candidates. -/
theorem spam_never_summarized :
    (∀ (db : DB) (e : EmailRec) (co : Bool) (oracle : Oracle) (db' : DB) (b : Bool)
        (tr : Trace) (row : InferenceRec),
        db.current = db.committed →
        process_email db e co oracle = (db', b, tr) →
        firstInference db'.current e.id "classification" = some row →
        row.json.asCls.is_spam.getD false = true →
        summariesFor db'.current e.id = summariesFor db.current e.id ∧
        tr.oracleSummarizeCalls = 0) ∧
    (∀ (db : DB) (mx : Option Nat) (oracle : Oracle) (eid : Nat),
        db.current = db.committed →
        (∀ r ∈ db.current.inferences, r.emailId = eid → r.kind = "classification" →
           r.json.asCls.is_spam.getD false = true) →
        summariesFor (summarize_pending_emails db mx oracle).1.current eid =
          summariesFor db.current eid) := by
  constructor
  · intro db e co oracle db' b tr row hclean hrun hrow hspam
    unfold process_email at hrun
    simp only [] at hrun
    split at hrun
    · injection hrun with h1 h2
      injection h2 with h2 h3
      subst h1 h3
      exact ⟨rfl, rfl⟩
    · split at hrun
      · rename_i rowC heqC
        exact processStep2_spam_no_summary _ _ _ _ _ _ _ _ _ _ _ _ hclean heqC rfl hrun
          row hrow hspam
      · rename_i heqC
        split at hrun
        · rename_i a tr0 heq0
          injection hrun with h1 h2
          injection h2 with h2 h3
          subst h1 h3
          exfalso
          simp only [DB.rollback_current, ← hclean] at hrow
          rw [heqC] at hrow
          exact Option.noConfusion hrow
        · rename_i cls0 tr0 heq0
          set dbIn := (db.addInf { emailId := e.id, kind := "classification", json := InfPayload.cls cls0, model := MODEL_NAME }).commit with hdbIn
          have heqC' : findInf db.current.inferences e.id "classification" = none := heqC
          have hIn1 : firstInference dbIn.current e.id "classification" = some { emailId := e.id, kind := "classification", json := InfPayload.cls cls0, model := MODEL_NAME } := by
            rw [hdbIn]
            simp only [DB.commit_current, DB.addInf_current, firstInference_mk]
            rw [findInf_append_of_none _ _ _ _ heqC']
            simp [findInf]
          obtain ⟨hA, hB⟩ := processStep2_spam_no_summary dbIn e co oracle cls0 _ _ tr0
            db' b tr _ rfl hIn1 rfl hrun row hrow hspam
          constructor
          · rw [hA]
            unfold summariesFor
            rw [hdbIn]
            simp only [DB.commit_current, DB.addInf_current]
            exact summariesFor_append_other _ _ _ (by simp)
          · rw [hB]
            have hz := cwrl_summarize_zero oracle e (lookupUser db.current e)
            rw [heq0] at hz
            exact hz
  · intro db mx oracle eid hclean hspamAll
    have hnotin : eid ∉ nonSpamEmailIds db.current.inferences := by
      intro hmem
      unfold nonSpamEmailIds at hmem
      rw [List.mem_filterMap] at hmem
      obtain ⟨c, hc1, hc2⟩ := hmem
      rw [List.mem_filter] at hc1
      split at hc2
      · rename_i hcond
        injection hc2 with hc3
        simp only [Bool.and_eq_true, Bool.not_eq_true'] at hcond
        have hkind : c.kind = "classification" := by
          have := hc1.2
          simpa using this
        have := hspamAll c hc1.1 hc3 hkind
        rw [this] at hcond
        exact Bool.noConfusion hcond.2
      · exact Option.noConfusion hc2
    unfold summarize_pending_emails
    simp only []
    apply summarizeLoop_other_ids oracle eid _ db 0 hclean
    intro x hx
    have hx2 : x ∈ sortByDescK (fun a b => lexGT3 (summSortKey db.current.inferences a)
        (summSortKey db.current.inferences b))
        (sortByDescK (fun a b => decide (b.receivedAt < a.receivedAt))
          (db.current.emails.filter (fun e =>
            (nonSpamEmailIds db.current.inferences).contains e.id &&
            !(((db.current.inferences.filter (fun r => r.kind == "summary")).map
                (fun r => r.emailId)).contains e.id)))) := by
      revert hx
      cases mx with
      | none => exact fun hx => hx
      | some m =>
        by_cases hm : (m != 0) = true
        · simp only [hm, if_pos]
          exact fun hx => List.take_subset _ _ hx
        · simp only [hm]
          exact fun hx => hx
    have hx3 := (sortByDescK_perm _ _).mem_iff.1 hx2
    have hx4 := (sortByDescK_perm _ _).mem_iff.1 hx3
    have hx5 := List.mem_filter.1 hx4
    have hcont := ((Bool.and_eq_true _ _).mp hx5.2).1
    intro hxe
    rw [hxe] at hcont
    have : eid ∈ nonSpamEmailIds db.current.inferences := by
      simpa using hcont
    exact hnotin this

/-- Witness for C3 at the concrete spam-classified message. -/
theorem spam_never_summarized_witness :
    (summariesFor (process_email spamDB3 spamEmail3 false failingOracle).1.current
        spamEmail3.id = summariesFor spamDB3.current spamEmail3.id ∧
     (process_email spamDB3 spamEmail3 false failingOracle).2.2.oracleSummarizeCalls = 0) ∧
    summariesFor (summarize_pending_emails spamDB3 none failingOracle).1.current 3 =
      summariesFor spamDB3.current 3 :=
  ⟨spam_never_summarized.1 spamDB3 spamEmail3 false failingOracle _ _ _
     { emailId := 3, kind := "classification", json := InfPayload.cls spamCls3, model := MODEL_NAME }
     rfl rfl (by with_unfolding_all rfl) (by with_unfolding_all rfl),
   spam_never_summarized.2 spamDB3 none failingOracle 3 rfl (by decide)⟩

/-! ### Claim C2: process_email is idempotent -/

/-- A second run over a message with cached classification and ML rows (no
summary row) is a no-op when the gate cannot fire. -/
theorem processStep2_cached_noop (db1 : DB) (e : EmailRec) (co : Bool) (or : Oracle)
    (cls : Cls) (mrow : InferenceRec)
    (H : ∀ g : Cls,
      g = (if cls.spam_type.isNone then { cls with spam_type := some mrow.json.asMl.classification } else cls) →
      g.is_spam.getD false = false →
      (!co && (g.action == some "needs_reply" || g.priority == some "high")) = true → False) :
    processStep2 db1 e co or cls none (some mrow) {} = (db1, true, ({} : Trace)) := by
  unfold processStep2
  simp only []
  by_cases hgate : (if cls.spam_type.isNone then { cls with spam_type := some mrow.json.asMl.classification } else cls).is_spam.getD false = true
  · rw [if_pos hgate]
  · have hb : (if cls.spam_type.isNone then { cls with spam_type := some mrow.json.asMl.classification } else cls).is_spam.getD false = false := by
      cases hx : (if cls.spam_type.isNone then { cls with spam_type := some mrow.json.asMl.classification } else cls).is_spam.getD false
      · rfl
      · exact absurd hx hgate
    have hss : (!co && (none : Option InferenceRec).isNone &&
        ((if cls.spam_type.isNone then { cls with spam_type := some mrow.json.asMl.classification } else cls).action == some "needs_reply" ||
         (if cls.spam_type.isNone then { cls with spam_type := some mrow.json.asMl.classification } else cls).priority == some "high")) = false := by
      cases hco : (!co)
      · simp [hco]
      · simp only [Option.isNone_none, Bool.and_true, hco, Bool.true_and]
        cases hor : ((if cls.spam_type.isNone then { cls with spam_type := some mrow.json.asMl.classification } else cls).action == some "needs_reply" ||
            (if cls.spam_type.isNone then { cls with spam_type := some mrow.json.asMl.classification } else cls).priority == some "high")
        · rfl
        · exfalso
          exact H _ rfl hb (by rw [hco, hor]; rfl)
    rw [if_neg hgate]
    simp only [hss, Bool.false_eq_true, if_false]

/-- With cached classification and ML rows and the gate condition
excluded, a process_email call is a no-op returning True with an empty
trace. -/
theorem process_email_cached_noop (db1 : DB) (e : EmailRec) (co : Bool) (or : Oracle)
    (storedC storedM : InferenceRec)
    (hC2 : firstInference db1.current e.id "classification" = some storedC)
    (hM2 : firstInference db1.current e.id "ml_spam_classification" = some storedM)
    (H : firstInference db1.current e.id "summary" = none →
      ∀ g : Cls,
      g = (if storedC.json.asCls.spam_type.isNone then { storedC.json.asCls with spam_type := some storedM.json.asMl.classification } else storedC.json.asCls) →
      g.is_spam.getD false = false →
      (!co && (g.action == some "needs_reply" || g.priority == some "high")) = true → False) :
    process_email db1 e co or = (db1, true, ({} : Trace)) := by
  unfold process_email
  simp only []
  cases hS2 : firstInference db1.current e.id "summary" with
  | some s =>
    rw [hC2, hM2]
    simp
  | none =>
    rw [hC2, hM2]
    simp only [Option.isSome_some, Option.isSome_none, Bool.and_false, Bool.true_and,
      Bool.and_true, Bool.false_eq_true, if_false]
    exact processStep2_cached_noop db1 e co or storedC.json.asCls storedM (H hS2)

/-- After a successful processStep2 run the classification and ML rows are
stored, and whenever no summary row ends up stored the summarize gate for
the re-derived (patched) classification cannot fire. -/
theorem processStep2_success_post (db : DB) (e : EmailRec) (co : Bool) (or : Oracle)
    (cls : Cls) (eS eM : Option InferenceRec) (tr : Trace) (db1 : DB) (tr1 : Trace)
    (rowIn : InferenceRec)
    (hIn : firstInference db.current e.id "classification" = some rowIn)
    (hcls : rowIn.json.asCls = cls)
    (hS : firstInference db.current e.id "summary" = eS)
    (hM : firstInference db.current e.id "ml_spam_classification" = eM)
    (h : processStep2 db e co or cls eS eM tr = (db1, true, tr1)) :
    ∃ storedC storedM : InferenceRec,
      firstInference db1.current e.id "classification" = some storedC ∧
      firstInference db1.current e.id "ml_spam_classification" = some storedM ∧
      (firstInference db1.current e.id "summary" = none →
        ∀ g : Cls,
        g = (if storedC.json.asCls.spam_type.isNone then { storedC.json.asCls with spam_type := some storedM.json.asMl.classification } else storedC.json.asCls) →
        g.is_spam.getD false = false →
        (!co && (g.action == some "needs_reply" || g.priority == some "high")) = true → False) := by
  have hIn' : findInf db.current.inferences e.id "classification" = some rowIn := hIn
  have hS' : findInf db.current.inferences e.id "summary" = eS := hS
  have hM' : findInf db.current.inferences e.id "ml_spam_classification" = eM := hM
  cases eM with
  | none =>
    unfold processStep2 at h
    simp only [] at h
    set mlr := MLSpamClassifier.classify e db.current e.userId e.snippet (some cls) with hmlr
    set merged := mlMergeInto cls mlr with hmerged
    set mlRow : InferenceRec := { emailId := e.id, kind := "ml_spam_classification", json := InfPayload.ml mlr, model := "ml_heuristic_v1" } with hmlRow
    set updated := updateFirstCls (db.current.inferences ++ [mlRow]) e.id merged with hupd
    have hst := mlMergeInto_spam_type_isSome cls mlr
    rw [← hmerged] at hst
    have hnone : merged.spam_type.isNone = false := by
      cases hmt : merged.spam_type with
      | none => rw [hmt] at hst; exact absurd hst (by decide)
      | some v => rfl
    have hfindC : findInf updated e.id "classification" =
        some { rowIn with json := InfPayload.cls merged } := by
      rw [hupd, findInf_updateFirstCls_self,
        findInf_append_single_other _ _ _ _ (by simp [hmlRow]), hIn']
      rfl
    have hfindM : findInf updated e.id "ml_spam_classification" = some mlRow := by
      rw [hupd, findInf_updateFirstCls_other _ _ _ _ _ (by simp),
        findInf_append_of_none _ _ _ _ hM', findInf_singleton]
      simp [hmlRow]
    have hfindS : findInf updated e.id "summary" = eS := by
      rw [hupd, findInf_updateFirstCls_other _ _ _ _ _ (by simp),
        findInf_append_single_other _ _ _ _ (by simp [hmlRow])]
      exact hS'
    have hcondC : ¬(({ rowIn with json := InfPayload.cls merged } : InferenceRec).json.asCls.spam_type.isNone = true) := by
      intro hx
      rw [show ({ rowIn with json := InfPayload.cls merged } : InferenceRec).json.asCls = merged from rfl, hnone] at hx
      exact absurd hx (by decide)
    split at h
    · rename_i hgate
      injection h with h1 h2
      injection h2 with h2a h2b
      subst h1
      refine ⟨{ rowIn with json := InfPayload.cls merged }, mlRow, ?_, ?_, ?_⟩
      · unfold firstInference
        simp only [DB.commit_current, DB.updateCls_current, DB.addInf_current]
        rw [← hupd]
        exact hfindC
      · unfold firstInference
        simp only [DB.commit_current, DB.updateCls_current, DB.addInf_current]
        rw [← hupd]
        exact hfindM
      · intro hsum g hgdef hb hfire
        have hg : g = merged := by rw [hgdef, if_neg hcondC]; rfl
        rw [hg] at hb
        rw [hb] at hgate
        exact absurd hgate (by decide)
    · rename_i hgate
      split at h
      · rename_i hss
        split at h
        · rename_i s heqS
          injection h with h1 h2
          injection h2 with h2a h2b
          subst h1
          have hp := (Bool.and_eq_true _ _).mp hss
          have hp2 := (Bool.and_eq_true _ _).mp hp.1
          have heSn : eS = none := by
            cases eS with
            | none => rfl
            | some s0 => exact absurd hp2.2 (by simp)
          refine ⟨{ rowIn with json := InfPayload.cls merged }, mlRow, ?_, ?_, ?_⟩
          · unfold firstInference
            simp only [DB.commit_current, DB.updateCls_current, DB.addInf_current]
            rw [← hupd, findInf_append_single_other _ _ _ _ (by simp)]
            exact hfindC
          · unfold firstInference
            simp only [DB.commit_current, DB.updateCls_current, DB.addInf_current]
            rw [← hupd, findInf_append_single_other _ _ _ _ (by simp)]
            exact hfindM
          · intro hsum g hgdef hb hfire
            unfold firstInference at hsum
            simp only [DB.commit_current, DB.updateCls_current, DB.addInf_current] at hsum
            rw [← hupd, findInf_append, hfindS, heSn] at hsum
            simp [findInf] at hsum
        · rename_i err heqS
          injection h with h1 h2
          injection h2 with h2a h2b
          exact absurd h2a (by decide)
      · rename_i hss
        injection h with h1 h2
        injection h2 with h2a h2b
        subst h1
        refine ⟨{ rowIn with json := InfPayload.cls merged }, mlRow, ?_, ?_, ?_⟩
        · unfold firstInference
          simp only [DB.commit_current, DB.updateCls_current, DB.addInf_current]
          rw [← hupd]
          exact hfindC
        · unfold firstInference
          simp only [DB.commit_current, DB.updateCls_current, DB.addInf_current]
          rw [← hupd]
          exact hfindM
        · intro hsum g hgdef hb hfire
          unfold firstInference at hsum
          simp only [DB.commit_current, DB.updateCls_current, DB.addInf_current] at hsum
          rw [← hupd, hfindS] at hsum
          have hg : g = merged := by rw [hgdef, if_neg hcondC]; rfl
          rw [hg] at hfire
          have hp := (Bool.and_eq_true _ _).mp hfire
          exact hss (by rw [hsum, hp.1, hp.2]; rfl)
  | some mrow =>
    unfold processStep2 at h
    simp only [] at h
    set cls2 : Cls := if cls.spam_type.isNone then { cls with spam_type := some mrow.json.asMl.classification } else cls with hcls2
    split at h
    · rename_i hgate
      injection h with h1 h2
      injection h2 with h2a h2b
      subst h1
      refine ⟨rowIn, mrow, hIn, hM, ?_⟩
      intro hsum g hgdef hb hfire
      have hg : g = cls2 := by rw [hgdef, hcls, ← hcls2]
      rw [hg] at hb
      rw [hb] at hgate
      exact absurd hgate (by decide)
    · rename_i hgate
      split at h
      · rename_i hss
        split at h
        · rename_i s heqS
          injection h with h1 h2
          injection h2 with h2a h2b
          subst h1
          have hp := (Bool.and_eq_true _ _).mp hss
          have hp2 := (Bool.and_eq_true _ _).mp hp.1
          have heSn : eS = none := by
            cases eS with
            | none => rfl
            | some s0 => exact absurd hp2.2 (by simp)
          refine ⟨rowIn, mrow, ?_, ?_, ?_⟩
          · unfold firstInference
            simp only [DB.commit_current, DB.addInf_current]
            rw [findInf_append_single_other _ _ _ _ (by simp)]
            exact hIn'
          · unfold firstInference
            simp only [DB.commit_current, DB.addInf_current]
            rw [findInf_append_single_other _ _ _ _ (by simp)]
            exact hM'
          · intro hsum g hgdef hb hfire
            unfold firstInference at hsum
            simp only [DB.commit_current, DB.addInf_current] at hsum
            rw [findInf_append, hS', heSn] at hsum
            simp [findInf] at hsum
        · rename_i err heqS
          injection h with h1 h2
          injection h2 with h2a h2b
          exact absurd h2a (by decide)
      · rename_i hss
        injection h with h1 h2
        injection h2 with h2a h2b
        subst h1
        refine ⟨rowIn, mrow, hIn, hM, ?_⟩
        intro hsum g hgdef hb hfire
        have heSn : eS = none := by rw [← hS]; exact hsum
        have hg : g = cls2 := by rw [hgdef, hcls, ← hcls2]
        rw [hg] at hfire
        have hp := (Bool.and_eq_true _ _).mp hfire
        exact hss (by rw [heSn, hp.1, hp.2]; rfl)

/-- C2: calling process_email again immediately after a successful call is
a cached no-op: the session state persisted by the first call is returned
unchanged, the result is True, and the second call's trace is empty — in
particular zero oracle classify calls and zero oracle summarize calls. -/
theorem process_email_idempotent (db : DB) (e : EmailRec) (co : Bool) (or : Oracle)
    (db1 : DB) (tr1 : Trace)
    (h : process_email db e co or = (db1, true, tr1)) :
    process_email db1 e co or = (db1, true, ({} : Trace)) := by
  unfold process_email at h
  simp only [] at h
  split at h
  · rename_i hfull
    injection h with h1 h2
    injection h2 with h2a h2b
    subst h1
    have hp := (Bool.and_eq_true _ _).mp hfull
    have hp2 := (Bool.and_eq_true _ _).mp hp.1
    cases hC : firstInference db.current e.id "classification" with
    | none => rw [hC] at hp2; exact absurd hp2.1 (by decide)
    | some storedC =>
      cases hMl : firstInference db.current e.id "ml_spam_classification" with
      | none => rw [hMl] at hp; exact absurd hp.2 (by decide)
      | some storedM =>
        cases hSum : firstInference db.current e.id "summary" with
        | none => rw [hSum] at hp2; exact absurd hp2.2 (by decide)
        | some storedS =>
          apply process_email_cached_noop db e co or storedC storedM hC hMl
          intro hsum
          rw [hSum] at hsum
          exact absurd hsum (by simp)
  · rename_i hfull
    split at h
    · rename_i rowC heqC
      obtain ⟨sC, sM, hC1, hM1, hH⟩ := processStep2_success_post db e co or
        rowC.json.asCls (firstInference db.current e.id "summary")
        (firstInference db.current e.id "ml_spam_classification") {} db1 tr1 rowC
        heqC rfl rfl rfl h
      exact process_email_cached_noop db1 e co or sC sM hC1 hM1 hH
    · rename_i heqC
      split at h
      · rename_i err tr0 heq0
        injection h with h1 h2
        injection h2 with h2a h2b
        exact absurd h2a (by decide)
      · rename_i cls0 tr0 heq0
        have hIn2 : firstInference ((db.addInf { emailId := e.id, kind := "classification", json := InfPayload.cls cls0, model := MODEL_NAME }).commit).current e.id "classification" = some { emailId := e.id, kind := "classification", json := InfPayload.cls cls0, model := MODEL_NAME } := by
          unfold firstInference
          simp only [DB.commit_current, DB.addInf_current]
          rw [findInf_append_of_none _ _ _ _ heqC]
          simp [findInf]
        have hS2 : firstInference ((db.addInf { emailId := e.id, kind := "classification", json := InfPayload.cls cls0, model := MODEL_NAME }).commit).current e.id "summary" = firstInference db.current e.id "summary" := by
          unfold firstInference
          simp only [DB.commit_current, DB.addInf_current]
          rw [findInf_append_single_other _ _ _ _ (by simp)]
        have hM2 : firstInference ((db.addInf { emailId := e.id, kind := "classification", json := InfPayload.cls cls0, model := MODEL_NAME }).commit).current e.id "ml_spam_classification" = firstInference db.current e.id "ml_spam_classification" := by
          unfold firstInference
          simp only [DB.commit_current, DB.addInf_current]
          rw [findInf_append_single_other _ _ _ _ (by simp)]
        obtain ⟨sC, sM, hC1, hM1, hH⟩ := processStep2_success_post _ e co or
          cls0 (firstInference db.current e.id "summary")
          (firstInference db.current e.id "ml_spam_classification") tr0 db1 tr1 _
          hIn2 rfl hS2 hM2 h
        exact process_email_cached_noop db1 e co or sC sM hC1 hM1 hH

/-- Witness for C2: a concrete first call succeeds, and the second call
over the persisted session is the identity with an empty trace. -/
theorem process_email_idempotent_witness :
    process_email (process_email plainDB plainEmail false okOracle).1 plainEmail false okOracle
      = ((process_email plainDB plainEmail false okOracle).1, true, ({} : Trace)) :=
  process_email_idempotent plainDB plainEmail false okOracle
    (process_email plainDB plainEmail false okOracle).1
    (process_email plainDB plainEmail false okOracle).2.2
    (by with_unfolding_all rfl)
